import Mathlib

/-!
# GNSS fix-acquisition loop of `positioning_standalone.cpp`

A shallow embedding of the control loop of `app_main`
(`examples/positioning_standalone/main/positioning_standalone.cpp`, lines 69-135)
together with the callback `fixHandler` (lines 22-25), and theorems about it.

The modem library (`WalterModem.h`) is not part of the sources at hand. What the
loop needs from it is kept as data: the result of each `performGNSSAction` call
and the moments at which the library invokes the callback.

The loop is described twice. First as functions (`waitLoop`, `retryLoop`,
`mainLoop`) of what the library does, where the callback runs in one of the
windows in which `app_main` can tell its arrival apart; then statement by
statement (`step`), with the two statements of the callback placed freely
between those of `app_main`. `acquireCycle_realised` relates the two.

The `int` counters `i` and `j` are natural numbers here: they stay below
`GNSS_RETRY_COUNT` and `GNSS_TIMEOUT`. Loops take fuel, one unit per iteration,
and return `none` when it runs out; `waitLoop_total` and `retryLoop_total` show
that the fuel supplied by `waitForFix` and `acquireCycle` is enough.
-/

namespace Positioning

/-! ## Floating-point values as comparisons see them -/

/-- A floating-point value as far as the comparisons `<=` and `>` can tell:
not-a-number, an infinity, or a finite number (every finite binary
floating-point number is a rational; both zeros are `finite 0`). -/
inductive IEEE where
  | nan
  | negInf
  | finite (q : ℚ)
  | posInf
  deriving DecidableEq

namespace IEEE

/-- The C++ comparison `x <= y` on floating-point operands: false as soon as
one operand is not-a-number. -/
def le : IEEE → IEEE → Bool
  | nan, _ => false
  | _, nan => false
  | negInf, _ => true
  | finite _, negInf => false
  | finite a, finite b => decide (a ≤ b)
  | finite _, posInf => true
  | posInf, posInf => true
  | posInf, _ => false

/-- The C++ comparison `x > y` on floating-point operands: false as soon as
one operand is not-a-number. -/
def gt : IEEE → IEEE → Bool
  | nan, _ => false
  | _, nan => false
  | negInf, _ => false
  | finite _, negInf => true
  | finite a, finite b => decide (b < a)
  | finite _, posInf => false
  | posInf, posInf => false
  | posInf, _ => true

end IEEE

/-! ## Constants (lines 10-13) -/

/-- Line 10: `#define MAX_GNSS_CONFIDENCE 100.0`. -/
def MAX_GNSS_CONFIDENCE : ℚ := 100

/-- Line 12: `#define GNSS_RETRY_COUNT 5`. -/
def GNSS_RETRY_COUNT : Nat := 5

/-- Line 13: `#define GNSS_TIMEOUT 300`. -/
def GNSS_TIMEOUT : Nat := 300

/-! ## Records delivered by the modem library -/

/-- Modelled from the spec: the declaration of the satellite entry (in
`WalterModem.h`) is missing from the sources; the spec gives it one field,
`signalStrength: integer`. -/
structure WalterModemGNSSSat where
  signalStrength : Int
  deriving DecidableEq

/-- Modelled from the spec: the declaration of the fix record (in
`WalterModem.h`) is missing from the sources. The fields are the ones the loop
reads: `estimatedConfidence`, `latitude`, `longitude` (floating point),
`satCount` and the array `sats`. -/
structure WalterModemGNSSFix where
  estimatedConfidence : IEEE
  latitude : IEEE
  longitude : IEEE
  satCount : Nat
  sats : List WalterModemGNSSSat
  deriving DecidableEq

/-! ## The pure parts of the loop body -/

/-- Line 96: `posFix.estimatedConfidence <= MAX_GNSS_CONFIDENCE`, the test that
leaves the retry loop. The threshold is a parameter. -/
def acceptable (thr : ℚ) (posFix : WalterModemGNSSFix) : Bool :=
  IEEE.le posFix.estimatedConfidence (IEEE.finite thr)

/-- Line 126: `posFix.estimatedConfidence > MAX_GNSS_CONFIDENCE`, the test that
zeroes the coordinates and logs "Invalid GNSS fix (Low confidence)". -/
def flaggedInvalid (thr : ℚ) (posFix : WalterModemGNSSFix) : Bool :=
  IEEE.gt posFix.estimatedConfidence (IEEE.finite thr)

/-- Lines 122-130: the locals `lat`, `lon` after the block "Validate GNSS fix".
With the fields of the record of the type of the locals (`float`, as in the
spec), `float lat = posFix.latitude` copies the value. -/
def validate (thr : ℚ) (posFix : WalterModemGNSSFix) : IEEE × IEEE :=
  let lat := posFix.latitude
  let lon := posFix.longitude
  if flaggedInvalid thr posFix then (IEEE.finite 0, IEEE.finite 0) else (lat, lon)

/-- One pass through the body of the counting loop (lines 104-106) at index
`i`: `none` when `sats[i]` lies outside the array; the increment is the one of
a `uint8_t`. -/
def countStep (posFix : WalterModemGNSSFix) (strong : Nat) (i : Nat) : Option Nat :=
  match posFix.sats.get? i with
  | none => none
  | some sat => some (if sat.signalStrength ≥ 30 then (strong + 1) % 256 else strong)

/-- Lines 101-107: `strongSatellites` after
`for (int i = 0; i < posFix.satCount; ++i)`. -/
def strongSatellites (posFix : WalterModemGNSSFix) : Option Nat :=
  (List.range posFix.satCount).foldlM (countStep posFix) 0

/-! ## Shared state and the callback (lines 16-25) -/

/-- Lines 16-17: the two globals shared between the callback and the loop. -/
structure Globals where
  fixRcvd : Bool
  posFix : WalterModemGNSSFix
  deriving DecidableEq

/-- Lines 22-25: `fixHandler` copies the record into `posFix`, then sets
`fixRcvd`. -/
def fixHandler (fix : WalterModemGNSSFix) (_g : Globals) : Globals :=
  { posFix := fix, fixRcvd := true }

/-- What the modem library does around one fix command: the result of
`performGNSSAction`, and for each window of the wait the record with which it
invokes the callback there, if it does. Window `0` lies between the return of
`performGNSSAction` and the first test of `fixRcvd`; window `t + 1` is the
`(t + 1)`-th `vTaskDelay` of the wait loop. A callback that runs between a test
of `fixRcvd` and the `vTaskDelay` that follows is seen by `app_main` at the same
test as one that runs during that `vTaskDelay`, and counts as in that window. -/
structure Attempt where
  performGNSSAction : Bool
  notify : Nat → Option WalterModemGNSSFix

/-- The callback runs in a window iff the library invokes it there. -/
def callback (n : Option WalterModemGNSSFix) (g : Globals) : Globals :=
  match n with
  | none => g
  | some fix => fixHandler fix g

/-! ## The wait loop (lines 83-93) -/

/-- How the wait loop is left. -/
inductive WaitEnd where
  | received
  | timedOut
  deriving DecidableEq

/-- State at the exit of the wait loop: the wait counter `j`, the number of
`vTaskDelay(pdMS_TO_TICKS(500))` calls made, the globals. -/
structure WaitResult where
  ending : WaitEnd
  j : Nat
  sleeps : Nat
  globals : Globals
  deriving DecidableEq

/-- Lines 85-93, `while (!fixRcvd) { if (j >= GNSS_TIMEOUT) return; j++;
vTaskDelay(...); }`, one iteration per unit of fuel; `none` when the fuel runs
out. `T` stands for `GNSS_TIMEOUT`. -/
def waitLoop (T : Nat) (notify : Nat → Option WalterModemGNSSFix) :
    Nat → Nat → Nat → Globals → Option WaitResult
  | 0, _, _, _ => none
  | fuel + 1, j, sleeps, g =>
    if !g.fixRcvd then
      if j ≥ T then
        some ⟨WaitEnd.timedOut, j, sleeps, g⟩
      else
        waitLoop T notify fuel (j + 1) (sleeps + 1) (callback (notify (sleeps + 1)) g)
    else
      some ⟨WaitEnd.received, j, sleeps, g⟩

/-- Lines 84-93: `int j = 0;` and the wait loop, entered after window `0`. -/
def waitForFix (T : Nat) (notify : Nat → Option WalterModemGNSSFix) (g : Globals) :
    Option WaitResult :=
  waitLoop T notify (T + 1) 0 0 (callback (notify 0) g)

/-! ## The retry loop (lines 71-99) -/

/-- What happened in one pass through the body of the retry loop, that is,
for one `performGNSSAction` call. -/
inductive AttemptLog where
  | commandFailed
  | timedOut (j sleeps : Nat)
  | tested (j sleeps : Nat) (posFix : WalterModemGNSSFix) (accepted : Bool)
  deriving DecidableEq

/-- Number of poll sleeps made for one command. -/
def AttemptLog.sleeps : AttemptLog → Nat
  | commandFailed => 0
  | timedOut _ s => s
  | tested _ s _ _ => s

/-- How one cycle ends: at one of the two `return`s, or by reaching line 101
with the given `posFix`, from which the report is computed. -/
inductive CycleExit where
  | commandFailed
  | timedOut
  | report (posFix : WalterModemGNSSFix)
  deriving DecidableEq

/-- One cycle: a log entry per `performGNSSAction` call in order, the exit,
the globals at the exit. -/
structure CycleResult where
  attempts : List AttemptLog
  exit : CycleExit
  globals : Globals
  deriving DecidableEq

/-- Lines 71-99, `for (int i = 0; i < GNSS_RETRY_COUNT; ++i) { ... }`, one
iteration per unit of fuel; `none` when the fuel runs out. `N` stands for
`GNSS_RETRY_COUNT`, `T` for `GNSS_TIMEOUT`, `thr` for `MAX_GNSS_CONFIDENCE`;
`env i` is what the library does around the command of iteration `i`. -/
def retryLoop (N T : Nat) (thr : ℚ) (env : Nat → Attempt) :
    Nat → Nat → Globals → Option CycleResult
  | 0, _, _ => none
  | fuel + 1, i, g =>
    if i < N then
      let g1 : Globals := { g with fixRcvd := false }
      if !(env i).performGNSSAction then
        some ⟨[AttemptLog.commandFailed], CycleExit.commandFailed, g1⟩
      else
        match waitForFix T (env i).notify g1 with
        | none => none
        | some w =>
          match w.ending with
          | WaitEnd.timedOut =>
            some ⟨[AttemptLog.timedOut w.j w.sleeps], CycleExit.timedOut, w.globals⟩
          | WaitEnd.received =>
            if acceptable thr w.globals.posFix then
              some ⟨[AttemptLog.tested w.j w.sleeps w.globals.posFix true],
                CycleExit.report w.globals.posFix, w.globals⟩
            else
              match retryLoop N T thr env fuel (i + 1) w.globals with
              | none => none
              | some r =>
                some { r with
                  attempts := AttemptLog.tested w.j w.sleeps w.globals.posFix false :: r.attempts }
    else
      some ⟨[], CycleExit.report g.posFix, g⟩

/-- One acquisition cycle: the retry loop from `i = 0`. -/
def acquireCycle (N T : Nat) (thr : ℚ) (env : Nat → Attempt) (g : Globals) :
    Option CycleResult :=
  retryLoop N T thr env (N + 1) 0 g

/-! ## The cycle loop (lines 70-135) -/

/-- Lines 70-135, `for(;;) { ... }`, observed for at most `n` more cycles
starting with cycle `c`: the results of the cycles run, in order. The loop
goes on after a report (lines 101-134) and stops at a `return`. `env c` is what
the library does during cycle `c`. -/
def mainLoop (N T : Nat) (thr : ℚ) (env : Nat → Nat → Attempt) :
    Nat → Nat → Globals → Option (List CycleResult)
  | 0, _, _ => some []
  | n + 1, c, g =>
    match acquireCycle N T thr (env c) g with
    | none => none
    | some r =>
      match r.exit with
      | CycleExit.report _ =>
        match mainLoop N T thr env n (c + 1) r.globals with
        | none => none
        | some rs => some (r :: rs)
      | _ => some [r]

/-- The loop of `app_main` with the constants of lines 10-13, from the
initial globals `g`. -/
def app_main (env : Nat → Nat → Attempt) (n : Nat) (g : Globals) : Option (List CycleResult) :=
  mainLoop GNSS_RETRY_COUNT GNSS_TIMEOUT MAX_GNSS_CONFIDENCE env n 0 g

/-! ## Provider behaviours used in the statements -/

/-- The first callback invocation around the command lands in window `t` and
carries `r`, and the command itself succeeds. -/
def Attempt.DeliversAt (a : Attempt) (t : Nat) (r : WalterModemGNSSFix) : Prop :=
  a.performGNSSAction = true ∧ a.notify t = some r ∧ ∀ s, s < t → a.notify s = none

/-- Log of the iterations `i, ..., i + d - 1` when each of them received the
record `rec i'` in window `win i'` and rejected it. -/
def rejectedLog (win : Nat → Nat) (rec : Nat → WalterModemGNSSFix) (i d : Nat) :
    List AttemptLog :=
  (List.range' i d).map (fun i' => AttemptLog.tested (win i') (win i') (rec i') false)

/-- The globals after the iterations `i, ..., i + d - 1` each received a
record: the flag is set and `posFix` holds the last record received. -/
def carried (rec : Nat → WalterModemGNSSFix) (i d : Nat) (g : Globals) : Globals :=
  if d = 0 then g else ⟨true, rec (i + d - 1)⟩

/-- Total number of poll sleeps of a cycle. -/
def totalSleeps (log : List AttemptLog) : Nat :=
  (log.map AttemptLog.sleeps).sum

/-- A result with a log put in front of its own. -/
def CycleResult.after (pre : List AttemptLog) (r : CycleResult) : CycleResult :=
  { r with attempts := pre ++ r.attempts }

instance (a : Attempt) (t : Nat) (r : WalterModemGNSSFix) : Decidable (a.DeliversAt t r) := by
  unfold Attempt.DeliversAt
  infer_instance

/-- A record with the given confidence, at latitude 51 and longitude 4, with
no satellite entries. -/
def fixWith (c : IEEE) : WalterModemGNSSFix :=
  ⟨c, IEEE.finite 51, IEEE.finite 4, 0, []⟩

/-- The library accepts the command and invokes the callback once, in window
`t`, with the record `r`. -/
def deliver (t : Nat) (r : WalterModemGNSSFix) : Attempt :=
  ⟨true, fun s => if s = t then some r else none⟩

/-- The library accepts the command and never invokes the callback. -/
def silent : Attempt :=
  ⟨true, fun _ => none⟩

/-- The library refuses the command. -/
def failing : Attempt :=
  ⟨false, fun _ => none⟩

/-- The library behaves as listed for the first commands of a cycle and stays
silent afterwards. -/
def script (l : List Attempt) : Nat → Attempt :=
  fun i => l.getD i silent

/-- Globals before the first cycle: flag clear, some record in `posFix`. -/
def startGlobals : Globals :=
  ⟨false, fixWith (IEEE.finite 0)⟩

/-! ## The loop statement by statement, with the callback interleaved

The same loop once more, one statement at a time, so that the callback, which
the library runs from its own task, can be placed between any two statements
of `app_main`. Statements take effect one at a time and in program order, for
both tasks. Commands are numbered in the order in which they are issued; the
fields after `posFix` only keep track of these numbers and are not variables
of the program. -/

/-- Statements of the loop of `app_main` (lines 70-135): the test
`i < GNSS_RETRY_COUNT` of line 71, `fixRcvd = false` of line 72,
`performGNSSAction` of line 76, the test `!fixRcvd` of line 85, the test
`j >= GNSS_TIMEOUT` of line 87, `j++; vTaskDelay` of lines 91-92, the test of
line 96, the report of lines 101-130, the `vTaskDelay` of line 134, and the
end of `app_main` after a `return` (line 78 or 89). -/
inductive Pc where
  | retryTest
  | clearFlag
  | command
  | waitTest
  | timeoutTest
  | sleep
  | acceptTest
  | report
  | idle
  | returned
  deriving DecidableEq

/-- State of the program: the next statement of `app_main`, its locals `i` and
`j`, the two globals; then the bookkeeping: the number of commands issued so
far, this number at the start of the current cycle, the commands that have not
been answered by a callback yet, whether a callback stands between its two
statements, and the command and record of the callback that wrote `posFix`
last. -/
structure Sys where
  pc : Pc
  i : Nat
  j : Nat
  fixRcvd : Bool
  posFix : WalterModemGNSSFix
  issued : Nat
  cycleStart : Nat
  pending : List Nat
  copying : Bool
  source : Option (Nat × WalterModemGNSSFix)
  deriving DecidableEq

/-- What happens next: `app_main` executes its next statement (`cmdOk` is the
result of `performGNSSAction` when that is the statement), or the callback for
command `c` executes line 23 with the record `fix`, or the callback under way
executes line 24. -/
inductive Event where
  | main (cmdOk : Bool)
  | copy (c : Nat) (fix : WalterModemGNSSFix)
  | setFlag
  deriving DecidableEq

/-- The program before the first cycle (line 70), with `posFix` as given. -/
def Sys.init (posFix : WalterModemGNSSFix) : Sys :=
  { pc := Pc.retryTest, i := 0, j := 0, fixRcvd := false, posFix := posFix,
    issued := 0, cycleStart := 0, pending := [], copying := false, source := none }

/-- The next statement of `app_main` (lines 70-135); `none` after a `return`.
The statement of line 134 also starts the next cycle (`int i = 0` of line 71);
`int j = 0` of line 84 goes with the command. -/
def stepMain (N T : Nat) (thr : ℚ) (cmdOk : Bool) (s : Sys) : Option Sys :=
  match s.pc with
  | Pc.retryTest =>
    if s.i < N then some { s with pc := Pc.clearFlag } else some { s with pc := Pc.report }
  | Pc.clearFlag => some { s with pc := Pc.command, fixRcvd := false }
  | Pc.command =>
    if cmdOk then
      some { s with pc := Pc.waitTest, j := 0, issued := s.issued + 1,
                    pending := (s.issued + 1) :: s.pending }
    else
      some { s with pc := Pc.returned, issued := s.issued + 1 }
  | Pc.waitTest =>
    if !s.fixRcvd then some { s with pc := Pc.timeoutTest }
    else some { s with pc := Pc.acceptTest }
  | Pc.timeoutTest =>
    if s.j ≥ T then some { s with pc := Pc.returned } else some { s with pc := Pc.sleep }
  | Pc.sleep => some { s with pc := Pc.waitTest, j := s.j + 1 }
  | Pc.acceptTest =>
    if acceptable thr s.posFix then some { s with pc := Pc.report }
    else some { s with pc := Pc.retryTest, i := s.i + 1 }
  | Pc.report => some { s with pc := Pc.idle }
  | Pc.idle => some { s with pc := Pc.retryTest, i := 0, cycleStart := s.issued }
  | Pc.returned => none

/-- One event; `none` when it cannot take place: a statement after a `return`,
a callback for a command that is not awaiting one (the library invokes the
callback at most once per command, and only for a command issued), a callback
started while another is under way, line 24 without line 23. -/
def step (N T : Nat) (thr : ℚ) (s : Sys) : Event → Option Sys
  | Event.main cmdOk => stepMain N T thr cmdOk s
  | Event.copy c fix =>
    if c ∈ s.pending ∧ s.copying = false then
      some { s with posFix := fix, source := some (c, fix), pending := s.pending.erase c,
                    copying := true }
    else none
  | Event.setFlag =>
    if s.copying then some { s with fixRcvd := true, copying := false } else none

/-- A sequence of events from a state. -/
def exec (N T : Nat) (thr : ℚ) : Sys → List Event → Option Sys
  | s, [] => some s
  | s, e :: es =>
    match step N T thr s e with
    | none => none
    | some s' => exec N T thr s' es

/-- The property of the states that C9 is about, kept by every event: outside
the wait no command awaits its callback and none is under way; during the wait
the callback for the most recent command has not started, or stands between
its two statements, or is over with the flag set; wherever `posFix` is read it
holds the record of the callback for the most recent command, a command of the
current cycle. -/
def Inv (s : Sys) : Prop :=
  match s.pc with
  | Pc.retryTest =>
    s.pending = [] ∧ s.copying = false ∧ s.cycleStart ≤ s.issued ∧
      (0 < s.i → s.source = some (s.issued, s.posFix) ∧ s.cycleStart < s.issued)
  | Pc.clearFlag => s.pending = [] ∧ s.copying = false ∧ s.cycleStart ≤ s.issued
  | Pc.command =>
    s.pending = [] ∧ s.copying = false ∧ s.cycleStart ≤ s.issued ∧ s.fixRcvd = false
  | Pc.waitTest | Pc.timeoutTest | Pc.sleep =>
    s.cycleStart < s.issued ∧
      ((s.pending = [s.issued] ∧ s.copying = false ∧ s.fixRcvd = false) ∨
       (s.pending = [] ∧ s.copying = true ∧ s.fixRcvd = false ∧
          s.source = some (s.issued, s.posFix)) ∨
       (s.pending = [] ∧ s.copying = false ∧ s.fixRcvd = true ∧
          s.source = some (s.issued, s.posFix)))
  | Pc.acceptTest =>
    s.pending = [] ∧ s.copying = false ∧
      s.source = some (s.issued, s.posFix) ∧ s.cycleStart < s.issued
  | Pc.report | Pc.idle =>
    s.pending = [] ∧ s.copying = false ∧
      s.source = some (s.issued, s.posFix) ∧ s.cycleStart < s.issued
  | Pc.returned => True

/-! ## Comparisons -/

/-- A value above the bound is not at or below it. -/
theorem IEEE.le_eq_false_of_gt (x : IEEE) (q : ℚ) (h : IEEE.gt x (IEEE.finite q) = true) :
    IEEE.le x (IEEE.finite q) = false := by
  cases x with
  | nan => simp [IEEE.gt] at h
  | negInf => simp [IEEE.gt] at h
  | finite a =>
    simp only [IEEE.gt, decide_eq_true_eq] at h
    simp only [IEEE.le, decide_eq_false_iff_not, not_le]
    exact h
  | posInf => rfl

/-- Away from not-a-number, `>` is the negation of `<=`. -/
theorem IEEE.gt_eq_not_le (x : IEEE) (q : ℚ) (h : x ≠ IEEE.nan) :
    IEEE.gt x (IEEE.finite q) = !IEEE.le x (IEEE.finite q) := by
  cases x with
  | nan => exact absurd rfl h
  | negInf => rfl
  | finite a =>
    simp only [IEEE.gt, IEEE.le]
    by_cases hq : a ≤ q
    · simp [hq, not_lt.mpr hq]
    · simp [hq, not_le.mp hq]
  | posInf => rfl

/-! ## The wait loop: lemmas -/

theorem callback_none (g : Globals) : callback none g = g := rfl

theorem callback_some (r : WalterModemGNSSFix) (g : Globals) :
    callback (some r) g = ⟨true, r⟩ := rfl

/-- With the flag set the wait loop is left at once. -/
theorem waitLoop_flag_set (T : Nat) (notify : Nat → Option WalterModemGNSSFix)
    (fuel j s : Nat) (g : Globals) (hg : g.fixRcvd = true) :
    waitLoop T notify (fuel + 1) j s g = some ⟨WaitEnd.received, j, s, g⟩ := by
  simp [waitLoop, hg]

/-- While no callback runs, the wait loop polls on until window `t`, where the
record arrives. -/
theorem waitLoop_until (T : Nat) (notify : Nat → Option WalterModemGNSSFix)
    (t : Nat) (r : WalterModemGNSSFix) (ht : t ≤ T) (hr : notify t = some r) :
    ∀ (d j fuel : Nat) (g : Globals), j + d + 1 = t → d + 2 ≤ fuel → g.fixRcvd = false →
      (∀ s, j < s → s < t → notify s = none) →
      waitLoop T notify fuel j j g = some ⟨WaitEnd.received, t, t, ⟨true, r⟩⟩ := by
  intro d
  induction d with
  | zero =>
    intro j fuel g hj hf hg _
    obtain ⟨f, rfl⟩ : ∃ f, fuel = f + 2 := ⟨fuel - 2, by omega⟩
    have hjT : ¬ T ≤ j := by omega
    have hj1 : j + 1 = t := by omega
    subst hj1
    simp [waitLoop, hg, hjT, hr, callback_some]
  | succ d ih =>
    intro j fuel g hj hf hg hnone
    obtain ⟨f, rfl⟩ : ∃ f, fuel = f + 1 := ⟨fuel - 1, by omega⟩
    have hjT : ¬ T ≤ j := by omega
    have hn : notify (j + 1) = none := hnone (j + 1) (by omega) (by omega)
    have := ih (j + 1) f g (by omega) (by omega) hg (fun s h1 h2 => hnone s (by omega) h2)
    simp [waitLoop, hg, hjT, hn, callback_none, this]

/-- A record delivered in a window `t ≤ T` ends the wait after `t` sleeps. -/
theorem waitForFix_received (T : Nat) (notify : Nat → Option WalterModemGNSSFix)
    (t : Nat) (r : WalterModemGNSSFix) (g : Globals) (ht : t ≤ T) (hg : g.fixRcvd = false)
    (hr : notify t = some r) (hnone : ∀ s, s < t → notify s = none) :
    waitForFix T notify g = some ⟨WaitEnd.received, t, t, ⟨true, r⟩⟩ := by
  unfold waitForFix
  cases t with
  | zero =>
    rw [hr, callback_some]
    exact waitLoop_flag_set T notify T 0 0 _ rfl
  | succ t =>
    rw [hnone 0 (by omega), callback_none]
    exact waitLoop_until T notify (t + 1) r ht hr t 0 (T + 1) g (by omega) (by omega) hg
      (fun s _ h2 => hnone s h2)

/-- While no callback runs, the wait loop polls on until the counter equals
`T`, and fails there. -/
theorem waitLoop_silent (T : Nat) (notify : Nat → Option WalterModemGNSSFix) :
    ∀ (d j fuel : Nat) (g : Globals), j + d = T → d + 1 ≤ fuel → g.fixRcvd = false →
      (∀ s, j < s → s ≤ T → notify s = none) →
      waitLoop T notify fuel j j g = some ⟨WaitEnd.timedOut, T, T, g⟩ := by
  intro d
  induction d with
  | zero =>
    intro j fuel g hj hf hg _
    obtain ⟨f, rfl⟩ : ∃ f, fuel = f + 1 := ⟨fuel - 1, by omega⟩
    have hj1 : j = T := by omega
    subst hj1
    simp [waitLoop, hg]
  | succ d ih =>
    intro j fuel g hj hf hg hnone
    obtain ⟨f, rfl⟩ : ∃ f, fuel = f + 1 := ⟨fuel - 1, by omega⟩
    have hjT : ¬ T ≤ j := by omega
    have hn : notify (j + 1) = none := hnone (j + 1) (by omega) (by omega)
    have := ih (j + 1) f g (by omega) (by omega) hg (fun s h1 h2 => hnone s (by omega) h2)
    simp [waitLoop, hg, hjT, hn, callback_none, this]

/-- No callback in the windows `0 .. T`: the wait fails with `j = T` after `T`
sleeps, whatever is scheduled for later windows. -/
theorem waitForFix_timedOut (T : Nat) (notify : Nat → Option WalterModemGNSSFix)
    (g : Globals) (hg : g.fixRcvd = false) (hnone : ∀ s, s ≤ T → notify s = none) :
    waitForFix T notify g = some ⟨WaitEnd.timedOut, T, T, g⟩ := by
  unfold waitForFix
  rw [hnone 0 (by omega), callback_none]
  exact waitLoop_silent T notify T 0 (T + 1) g (by omega) (by omega) hg
    (fun s _ h2 => hnone s h2)

/-- The wait loop returns, whatever the library does, and its counters stay
within bounds. -/
theorem waitLoop_total (T : Nat) (notify : Nat → Option WalterModemGNSSFix) :
    ∀ (fuel j s : Nat) (g : Globals), T < j + fuel → 0 < fuel →
      ∃ w, waitLoop T notify fuel j s g = some w ∧ j ≤ w.j ∧ w.j ≤ max j T ∧
        w.sleeps + j = w.j + s ∧
        (w.ending = WaitEnd.timedOut → T ≤ w.j ∧ w.globals.fixRcvd = false) ∧
        (w.ending = WaitEnd.received → w.globals.fixRcvd = true) := by
  intro fuel
  induction fuel with
  | zero => intro j s g _ h; omega
  | succ f ih =>
    intro j s g hf _
    by_cases hg : g.fixRcvd = true
    · refine ⟨⟨WaitEnd.received, j, s, g⟩, by simp [waitLoop, hg], ?_⟩
      simp [hg]
      omega
    · have hg : g.fixRcvd = false := by simpa using hg
      by_cases hjT : T ≤ j
      · refine ⟨⟨WaitEnd.timedOut, j, s, g⟩, by simp [waitLoop, hg, hjT], ?_⟩
        simp [hg, hjT]
        omega
      · obtain ⟨w, hw, h1, h2, h3, h4, h5⟩ :=
          ih (j + 1) (s + 1) (callback (notify (s + 1)) g) (by omega) (by omega)
        refine ⟨w, by simp [waitLoop, hg, hjT, hw], by omega, ?_, by omega, h4, h5⟩
        have : max (j + 1) T = T := by omega
        have : max j T = T := by omega
        omega

/-- The wait returns, after at most `T` sleeps. -/
theorem waitForFix_total (T : Nat) (notify : Nat → Option WalterModemGNSSFix) (g : Globals) :
    ∃ w, waitForFix T notify g = some w ∧ w.sleeps ≤ T ∧ w.j = w.sleeps ∧
      (w.ending = WaitEnd.timedOut → w.sleeps = T) := by
  obtain ⟨w, hw, _, h2, h3, h4, _⟩ :=
    waitLoop_total T notify (T + 1) 0 0 (callback (notify 0) g) (by omega) (by omega)
  refine ⟨w, hw, ?_, by omega, ?_⟩
  · have : max 0 T = T := by omega
    omega
  · intro h
    have := (h4 h).1
    have : max 0 T = T := by omega
    omega

/-! ## The retry loop: lemmas -/

/-- One iteration of the retry loop in which a record arrives in time. -/
theorem retryLoop_received (N T : Nat) (thr : ℚ) (env : Nat → Attempt) (fuel i t : Nat)
    (g : Globals) (r : WalterModemGNSSFix) (hi : i < N) (ht : t ≤ T)
    (hd : (env i).DeliversAt t r) :
    retryLoop N T thr env (fuel + 1) i g =
      if acceptable thr r then
        some ⟨[AttemptLog.tested t t r true], CycleExit.report r, ⟨true, r⟩⟩
      else
        match retryLoop N T thr env fuel (i + 1) ⟨true, r⟩ with
        | none => none
        | some res => some (res.after [AttemptLog.tested t t r false]) := by
  obtain ⟨hc, hr, hnone⟩ := hd
  have hw := waitForFix_received T (env i).notify t r { g with fixRcvd := false } ht rfl hr hnone
  simp only [retryLoop, hi, hc, hw, if_true, Bool.not_true, Bool.false_eq_true, if_false]
  by_cases ha : acceptable thr r = true
  · simp [ha]
  · simp only [ha, if_false]
    cases retryLoop N T thr env fuel (i + 1) ⟨true, r⟩ <;> simp [CycleResult.after]

/-- A run of `d` iterations that each receive and reject a record. -/
theorem retryLoop_rejected (N T : Nat) (thr : ℚ) (env : Nat → Attempt) (win : Nat → Nat)
    (rec : Nat → WalterModemGNSSFix) :
    ∀ (d i fuel : Nat) (g : Globals), i + d ≤ N →
      (∀ i', i ≤ i' → i' < i + d →
        win i' ≤ T ∧ (env i').DeliversAt (win i') (rec i') ∧ acceptable thr (rec i') = false) →
      retryLoop N T thr env (d + fuel) i g =
        match retryLoop N T thr env fuel (i + d) (carried rec i d g) with
        | none => none
        | some res => some (res.after (rejectedLog win rec i d)) := by
  intro d
  induction d with
  | zero =>
    intro i fuel g _ _
    simp only [Nat.zero_add, Nat.add_zero, carried, if_true, rejectedLog, List.range'_zero,
      List.map_nil]
    cases retryLoop N T thr env fuel i g <;> simp [CycleResult.after]
  | succ d ih =>
    intro i fuel g hN h
    obtain ⟨hw, hd, ha⟩ := h i (by omega) (by omega)
    have e : d + 1 + fuel = (d + fuel) + 1 := by omega
    rw [e, retryLoop_received N T thr env (d + fuel) i (win i) g (rec i) (by omega) hw hd]
    simp only [ha, Bool.false_eq_true, if_false]
    rw [ih (i + 1) fuel ⟨true, rec i⟩ (by omega) (fun i' h1 h2 => h i' (by omega) (by omega))]
    have e2 : i + 1 + d = i + (d + 1) := by omega
    have e3 : carried rec (i + 1) d ⟨true, rec i⟩ = carried rec i (d + 1) g := by
      unfold carried
      by_cases hd0 : d = 0
      · subst hd0; simp
      · have : i + 1 + d - 1 = i + (d + 1) - 1 := by omega
        simp [hd0, this]
    rw [e2, e3]
    cases retryLoop N T thr env fuel (i + (d + 1)) (carried rec i (d + 1) g) with
    | none => rfl
    | some res =>
      simp [CycleResult.after, rejectedLog, List.range'_succ]

theorem rejectedLog_length (win : Nat → Nat) (rec : Nat → WalterModemGNSSFix) (i d : Nat) :
    (rejectedLog win rec i d).length = d := by
  simp [rejectedLog]

/-- The retry loop left through its condition: the report is made from the
`posFix` at hand. -/
theorem retryLoop_exhausted (N T : Nat) (thr : ℚ) (env : Nat → Attempt) (fuel i : Nat)
    (g : Globals) (hi : N ≤ i) :
    retryLoop N T thr env (fuel + 1) i g = some ⟨[], CycleExit.report g.posFix, g⟩ := by
  have : ¬ i < N := by omega
  simp [retryLoop, this]

/-- One iteration of the retry loop in which the command fails. -/
theorem retryLoop_commandFailed (N T : Nat) (thr : ℚ) (env : Nat → Attempt) (fuel i : Nat)
    (g : Globals) (hi : i < N) (hc : (env i).performGNSSAction = false) :
    retryLoop N T thr env (fuel + 1) i g =
      some ⟨[AttemptLog.commandFailed], CycleExit.commandFailed, { g with fixRcvd := false }⟩ := by
  simp [retryLoop, hi, hc]

/-- One iteration of the retry loop in which no callback runs in the windows
`0 .. T`. -/
theorem retryLoop_timedOut (N T : Nat) (thr : ℚ) (env : Nat → Attempt) (fuel i : Nat)
    (g : Globals) (hi : i < N) (hc : (env i).performGNSSAction = true)
    (hnone : ∀ s, s ≤ T → (env i).notify s = none) :
    retryLoop N T thr env (fuel + 1) i g =
      some ⟨[AttemptLog.timedOut T T], CycleExit.timedOut, { g with fixRcvd := false }⟩ := by
  have hw := waitForFix_timedOut T (env i).notify { g with fixRcvd := false } rfl hnone
  simp [retryLoop, hi, hc, hw]

/-- What a cycle that reaches the report looks like: every command was
followed by a test of the record received, the report is made from the record
tested last, and a report on a record that is not acceptable comes after `N`
rejections. -/
theorem retryLoop_report (N T : Nat) (thr : ℚ) (env : Nat → Attempt) :
    ∀ (fuel i : Nat) (g : Globals) (r : CycleResult) (fix : WalterModemGNSSFix),
      retryLoop N T thr env fuel i g = some r → r.exit = CycleExit.report fix →
      r.globals.posFix = fix ∧
      (∀ a ∈ r.attempts, ∃ j s f, a = AttemptLog.tested j s f (acceptable thr f)) ∧
      (i < N → ∃ j s, r.attempts.getLast? =
        some (AttemptLog.tested j s fix (acceptable thr fix))) ∧
      (acceptable thr fix = false → r.attempts.length = N - i ∧
        ∀ a ∈ r.attempts, ∃ j s f, a = AttemptLog.tested j s f false ∧
          acceptable thr f = false) := by
  intro fuel
  induction fuel with
  | zero => intro i g r fix h; simp [retryLoop] at h
  | succ fuel ih =>
    intro i g r fix h hx
    rw [retryLoop] at h
    dsimp only at h
    split at h
    · rename_i hi
      split at h
      · simp only [Option.some.injEq] at h
        subst h
        simp at hx
      · split at h
        · simp at h
        · rename_i w hw
          split at h
          · simp only [Option.some.injEq] at h
            subst h
            simp at hx
          · split at h
            · rename_i hacc
              simp only [Option.some.injEq] at h
              subst h
              simp only [CycleExit.report.injEq] at hx
              subst hx
              refine ⟨rfl, ?_, ?_, ?_⟩
              · intro a ha
                simp only [List.mem_singleton] at ha
                exact ⟨w.j, w.sleeps, w.globals.posFix, by rw [ha, hacc]⟩
              · intro _
                exact ⟨w.j, w.sleeps, by simp [hacc]⟩
              · intro hf
                rw [hacc] at hf
                cases hf
            · rename_i hacc
              have hacc : acceptable thr w.globals.posFix = false := by simpa using hacc
              split at h
              · simp at h
              · rename_i res hres
                simp only [Option.some.injEq] at h
                subst h
                obtain ⟨h1, h2, h3, h4⟩ := ih (i + 1) w.globals res fix hres hx
                refine ⟨h1, ?_, ?_, ?_⟩
                · intro a ha
                  simp only [List.mem_cons] at ha
                  rcases ha with ha | ha
                  · exact ⟨w.j, w.sleeps, w.globals.posFix, by rw [ha, hacc]⟩
                  · exact h2 a ha
                · intro _
                  by_cases hi1 : i + 1 < N
                  · obtain ⟨j, s, hl⟩ := h3 hi1
                    refine ⟨j, s, ?_⟩
                    simp only
                    rw [List.getLast?_cons, hl]
                    rfl
                  · have hN : N ≤ i + 1 := by omega
                    cases fuel with
                    | zero => simp [retryLoop] at hres
                    | succ f =>
                      rw [retryLoop_exhausted N T thr env f (i + 1) w.globals hN] at hres
                      simp only [Option.some.injEq] at hres
                      subst hres
                      simp only [CycleExit.report.injEq] at hx
                      subst hx
                      exact ⟨w.j, w.sleeps, by simp [hacc]⟩
                · intro hf
                  obtain ⟨h5, h6⟩ := h4 hf
                  refine ⟨?_, ?_⟩
                  · simp only [List.length_cons, h5]
                    omega
                  · intro a ha
                    simp only [List.mem_cons] at ha
                    rcases ha with ha | ha
                    · exact ⟨w.j, w.sleeps, w.globals.posFix, ha, hacc⟩
                    · exact h6 a ha
    · rename_i hi
      simp only [Option.some.injEq] at h
      subst h
      simp only [CycleExit.report.injEq] at hx
      subst hx
      refine ⟨rfl, by simp, fun h => absurd h hi, fun _ => ⟨by simp; omega, by simp⟩⟩

/-- The retry loop returns, whatever the library does: it issues at most
`N - i` commands, at least one if it is entered at all, and sleeps at most `T`
times for each. -/
theorem retryLoop_total (N T : Nat) (thr : ℚ) (env : Nat → Attempt) :
    ∀ (fuel i : Nat) (g : Globals), N < i + fuel → 0 < fuel →
      ∃ r, retryLoop N T thr env fuel i g = some r ∧ r.attempts.length ≤ N - i ∧
        (i < N → 1 ≤ r.attempts.length) ∧ (∀ a ∈ r.attempts, a.sleeps ≤ T) := by
  intro fuel
  induction fuel with
  | zero => intro i g _ h; omega
  | succ fuel ih =>
    intro i g hf _
    by_cases hi : i < N
    · by_cases hc : (env i).performGNSSAction = true
      · obtain ⟨w, hw, hs, _, _⟩ := waitForFix_total T (env i).notify { g with fixRcvd := false }
        cases hwe : w.ending with
        | timedOut =>
          refine ⟨⟨[AttemptLog.timedOut w.j w.sleeps], CycleExit.timedOut, w.globals⟩, ?_, ?_⟩
          · simp [retryLoop, hi, hc, hw, hwe]
          · refine ⟨by simp; omega, by simp, ?_⟩
            intro a ha
            simp only [List.mem_singleton] at ha
            subst ha
            exact hs
        | received =>
          by_cases hacc : acceptable thr w.globals.posFix = true
          · refine ⟨⟨[AttemptLog.tested w.j w.sleeps w.globals.posFix true],
              CycleExit.report w.globals.posFix, w.globals⟩, ?_, ?_⟩
            · simp [retryLoop, hi, hc, hw, hwe, hacc]
            · refine ⟨by simp; omega, by simp, ?_⟩
              intro a ha
              simp only [List.mem_singleton] at ha
              subst ha
              exact hs
          · obtain ⟨r, hr, h1, _, h3⟩ := ih (i + 1) w.globals (by omega) (by omega)
            refine ⟨{ r with attempts :=
              AttemptLog.tested w.j w.sleeps w.globals.posFix false :: r.attempts }, ?_, ?_⟩
            · simp [retryLoop, hi, hc, hw, hwe, hacc, hr]
            · refine ⟨by simp; omega, by simp, ?_⟩
              intro a ha
              simp only [List.mem_cons] at ha
              rcases ha with ha | ha
              · subst ha; exact hs
              · exact h3 a ha
      · have hc : (env i).performGNSSAction = false := by simpa using hc
        refine ⟨_, retryLoop_commandFailed N T thr env fuel i g hi hc, ?_⟩
        refine ⟨by simp; omega, by simp, ?_⟩
        intro a ha
        simp only [List.mem_singleton] at ha
        subst ha
        simp [AttemptLog.sleeps]
    · refine ⟨_, retryLoop_exhausted N T thr env fuel i g (by omega), ?_⟩
      simp [hi]

/-- A cycle returns, whatever the library does. -/
theorem acquireCycle_total (N T : Nat) (thr : ℚ) (env : Nat → Attempt) (g : Globals) :
    ∃ r, acquireCycle N T thr env g = some r ∧ r.attempts.length ≤ N ∧
      (0 < N → 1 ≤ r.attempts.length) ∧ (∀ a ∈ r.attempts, a.sleeps ≤ T) := by
  obtain ⟨r, hr, h1, h2, h3⟩ := retryLoop_total N T thr env (N + 1) 0 g (by omega) (by omega)
  exact ⟨r, hr, by omega, h2, h3⟩

/-- Sleeps add up to at most `T` per command. -/
theorem totalSleeps_le (T : Nat) :
    ∀ (log : List AttemptLog), (∀ a ∈ log, a.sleeps ≤ T) → totalSleeps log ≤ log.length * T := by
  intro log
  induction log with
  | nil => intro _; simp [totalSleeps]
  | cons a l ih =>
    intro h
    have h1 := h a (by simp)
    have h2 := ih (fun b hb => h b (by simp [hb]))
    simp only [totalSleeps, List.map_cons, List.sum_cons, List.length_cons] at h2 ⊢
    rw [Nat.add_mul]
    omega

/-! ## The cycle loop: lemmas -/

/-- A cycle that ends at one of the two `return`s ends the run. -/
theorem mainLoop_return (N T : Nat) (thr : ℚ) (env : Nat → Nat → Attempt) (n c : Nat)
    (g : Globals) (r : CycleResult) (h : acquireCycle N T thr (env c) g = some r)
    (hx : ∀ fix, r.exit ≠ CycleExit.report fix) :
    mainLoop N T thr env (n + 1) c g = some [r] := by
  rw [mainLoop, h]
  cases hr : r.exit with
  | report fix => exact absurd hr (hx fix)
  | commandFailed => simp [hr]
  | timedOut => simp [hr]

/-- The cycle loop keeps returning results as long as it is observed. -/
theorem mainLoop_total (N T : Nat) (thr : ℚ) (env : Nat → Nat → Attempt) :
    ∀ (n c : Nat) (g : Globals), ∃ rs, mainLoop N T thr env n c g = some rs := by
  intro n
  induction n with
  | zero => intro c g; exact ⟨[], rfl⟩
  | succ n ih =>
    intro c g
    obtain ⟨r, hr, _⟩ := acquireCycle_total N T thr (env c) g
    cases hx : r.exit with
    | report fix =>
      obtain ⟨rs, hrs⟩ := ih (c + 1) r.globals
      exact ⟨r :: rs, by simp [mainLoop, hr, hx, hrs]⟩
    | commandFailed => exact ⟨[r], by simp [mainLoop, hr, hx]⟩
    | timedOut => exact ⟨[r], by simp [mainLoop, hr, hx]⟩

/-- After a cycle that reaches the report, the next cycle is run. -/
theorem mainLoop_report (N T : Nat) (thr : ℚ) (env : Nat → Nat → Attempt) (n c : Nat)
    (g : Globals) (r : CycleResult) (fix : WalterModemGNSSFix)
    (h : acquireCycle N T thr (env c) g = some r) (hx : r.exit = CycleExit.report fix) :
    ∃ r' rs, acquireCycle N T thr (env (c + 1)) r.globals = some r' ∧
      mainLoop N T thr env (n + 2) c g = some (r :: r' :: rs) := by
  obtain ⟨r', hr', _⟩ := acquireCycle_total N T thr (env (c + 1)) r.globals
  obtain ⟨rs', hrs'⟩ := mainLoop_total N T thr env (n + 1) (c + 1) r.globals
  have h2 := hrs'
  rw [mainLoop, hr'] at h2
  have : ∃ rs, rs' = r' :: rs := by
    cases hx' : r'.exit with
    | report fix' =>
      simp only [hx'] at h2
      cases hm : mainLoop N T thr env n (c + 1 + 1) r'.globals with
      | none => simp [hm] at h2
      | some l => simp [hm] at h2; exact ⟨l, h2.symm⟩
    | commandFailed => simp only [hx'] at h2; exact ⟨[], by simpa using h2.symm⟩
    | timedOut => simp only [hx'] at h2; exact ⟨[], by simpa using h2.symm⟩
  obtain ⟨rs, rfl⟩ := this
  refine ⟨r', rs, hr', ?_⟩
  rw [mainLoop, h]
  simp [hx, hrs']

/-- A cycle whose iterations `0, ..., i - 1` each receive and reject a record
goes on with iteration `i`. -/
theorem acquireCycle_rejected (N T : Nat) (thr : ℚ) (env : Nat → Attempt) (win : Nat → Nat)
    (rec : Nat → WalterModemGNSSFix) (g : Globals) (i : Nat) (hi : i < N)
    (hrej : ∀ i', i' < i →
      win i' ≤ T ∧ (env i').DeliversAt (win i') (rec i') ∧ acceptable thr (rec i') = false) :
    acquireCycle N T thr env g =
      match retryLoop N T thr env (N - i + 1) i (carried rec 0 i g) with
      | none => none
      | some res => some (res.after (rejectedLog win rec 0 i)) := by
  have e : N + 1 = i + (N - i + 1) := by omega
  have h1 := retryLoop_rejected N T thr env win rec i 0 (N - i + 1) g (by omega)
    (fun i' _ h2 => hrej i' (by omega))
  rw [Nat.zero_add] at h1
  rw [acquireCycle, e]
  exact h1

/-- A cycle in which iteration `i` sees no callback in the windows `0 .. T`
after `i` rejections: the wait of iteration `i` fails with `j = T` after `T`
sleeps, and the run ends there. -/
theorem cycle_timedOut (N T : Nat) (thr : ℚ) (envs : Nat → Nat → Attempt) (win : Nat → Nat)
    (rec : Nat → WalterModemGNSSFix) (c n : Nat) (g : Globals) (i : Nat) (hi : i < N)
    (hrej : ∀ i', i' < i →
      win i' ≤ T ∧ (envs c i').DeliversAt (win i') (rec i') ∧ acceptable thr (rec i') = false)
    (hcmd : (envs c i).performGNSSAction = true)
    (hquiet : ∀ s, s ≤ T → (envs c i).notify s = none) :
    ∃ r, acquireCycle N T thr (envs c) g = some r ∧
      r.attempts = rejectedLog win rec 0 i ++ [AttemptLog.timedOut T T] ∧
      r.attempts.length = i + 1 ∧
      r.exit = CycleExit.timedOut ∧
      mainLoop N T thr envs (n + 1) c g = some [r] := by
  have h1 := acquireCycle_rejected N T thr (envs c) win rec g i hi hrej
  rw [retryLoop_timedOut N T thr (envs c) (N - i) i _ hi hcmd hquiet] at h1
  refine ⟨_, h1, by simp [CycleResult.after], by simp [CycleResult.after, rejectedLog_length],
    by simp [CycleResult.after], ?_⟩
  exact mainLoop_return N T thr envs n c g _ h1 (by simp [CycleResult.after])

/-! ## The report: lemmas -/

/-- Away from a not-a-number confidence, the test of line 126 is the negation
of the test of line 96. -/
theorem flaggedInvalid_eq_not_acceptable (thr : ℚ) (posFix : WalterModemGNSSFix)
    (h : posFix.estimatedConfidence ≠ IEEE.nan) :
    flaggedInvalid thr posFix = !acceptable thr posFix :=
  IEEE.gt_eq_not_le posFix.estimatedConfidence thr h

/-- Away from a not-a-number confidence, the validated coordinates are the
ones of the record when it is acceptable and `(0.0, 0.0)` otherwise. -/
theorem validate_of_ne_nan (thr : ℚ) (posFix : WalterModemGNSSFix)
    (h : posFix.estimatedConfidence ≠ IEEE.nan) :
    validate thr posFix =
      if acceptable thr posFix then (posFix.latitude, posFix.longitude)
      else (IEEE.finite 0, IEEE.finite 0) := by
  unfold validate
  rw [flaggedInvalid_eq_not_acceptable thr posFix h]
  cases acceptable thr posFix <;> rfl

/-- Number of strong entries among the first `n` of a list. -/
theorem countStep_fold (posFix : WalterModemGNSSFix) :
    ∀ n, n ≤ 255 → n ≤ posFix.sats.length →
      (List.range n).foldlM (countStep posFix) 0 =
        some (((posFix.sats.take n).filter (fun s => decide (30 ≤ s.signalStrength))).length) := by
  intro n
  induction n with
  | zero => intro _ _; rfl
  | succ n ih =>
    intro h8 hb
    have hlt : n < posFix.sats.length := by omega
    rw [List.range_succ, List.foldlM_append, ih (by omega) (by omega)]
    have hc : ((posFix.sats.take n).filter
        (fun s => decide (30 ≤ s.signalStrength))).length ≤ n := by
      refine le_trans (List.length_filter_le _ _) ?_
      simp
    have hget : posFix.sats.get? n = some posFix.sats[n] := by
      simp [List.getElem?_eq_getElem hlt]
    simp only [List.foldlM_cons, List.foldlM_nil, Option.some_bind, Option.bind_eq_bind,
      countStep, hget, List.take_succ, List.getElem?_eq_getElem hlt, Option.toList_some,
      List.filter_append, List.length_append]
    by_cases hs : 30 ≤ posFix.sats[n].signalStrength
    · have hmod : (((posFix.sats.take n).filter
          (fun s => decide (30 ≤ s.signalStrength))).length + 1) % 256 =
          ((posFix.sats.take n).filter (fun s => decide (30 ≤ s.signalStrength))).length + 1 :=
        Nat.mod_eq_of_lt (by omega)
      simp [hs, hmod]
    · simp [hs]

/-! ## The interleaved loop: lemmas -/

theorem Inv_init (posFix : WalterModemGNSSFix) : Inv (Sys.init posFix) := by
  simp [Inv, Sys.init]

/-- Every statement of `app_main` keeps the property. -/
theorem stepMain_Inv (N T : Nat) (thr : ℚ) (hN : 1 ≤ N) (cmdOk : Bool) (s s' : Sys)
    (hinv : Inv s) (h : stepMain N T thr cmdOk s = some s') : Inv s' := by
  obtain ⟨pc, i, j, flag, posFix, issued, cycleStart, pending, copying, source⟩ := s
  cases pc <;> simp only [stepMain, Inv] at h hinv
  · -- retryTest
    split at h <;> simp only [Option.some.injEq] at h <;> subst h <;> simp only [Inv]
    · exact ⟨hinv.1, hinv.2.1, hinv.2.2.1⟩
    · rename_i hi
      have h0 : 0 < i := by omega
      exact ⟨hinv.1, hinv.2.1, (hinv.2.2.2 h0).1, (hinv.2.2.2 h0).2⟩
  · -- clearFlag
    simp only [Option.some.injEq] at h
    subst h
    exact ⟨hinv.1, hinv.2.1, hinv.2.2, rfl⟩
  · -- command
    split at h <;> simp only [Option.some.injEq] at h <;> subst h <;> simp only [Inv]
    exact ⟨Nat.lt_succ_of_le hinv.2.2.1, Or.inl ⟨by rw [hinv.1], hinv.2.1, hinv.2.2.2⟩⟩
  · -- waitTest
    split at h <;> simp only [Option.some.injEq] at h <;> subst h <;> simp only [Inv]
    · exact hinv
    · rename_i hf
      have hf : flag = true := by simpa using hf
      subst hf
      rcases hinv.2 with h1 | h1 | h1
      · simp at h1
      · simp at h1
      · exact ⟨h1.1, h1.2.1, h1.2.2.2, hinv.1⟩
  · -- timeoutTest
    split at h <;> simp only [Option.some.injEq] at h <;> subst h <;> simp only [Inv]
    exact hinv
  · -- sleep
    simp only [Option.some.injEq] at h
    subst h
    exact hinv
  · -- acceptTest
    split at h <;> simp only [Option.some.injEq] at h <;> subst h <;> simp only [Inv]
    · exact hinv
    · exact ⟨hinv.1, hinv.2.1, Nat.le_of_lt hinv.2.2.2, fun _ => hinv.2.2⟩
  · -- report
    simp only [Option.some.injEq] at h
    subst h
    exact hinv
  · -- idle
    simp only [Option.some.injEq] at h
    subst h
    exact ⟨hinv.1, hinv.2.1, Nat.le_refl _, fun h0 => absurd h0 (Nat.lt_irrefl 0)⟩
  · -- returned
    simp at h

/-- Every event keeps the property. -/
theorem step_Inv (N T : Nat) (thr : ℚ) (hN : 1 ≤ N) (e : Event) (s s' : Sys)
    (hinv : Inv s) (h : step N T thr s e = some s') : Inv s' := by
  cases e with
  | main cmdOk => exact stepMain_Inv N T thr hN cmdOk s s' hinv h
  | copy c fix =>
    obtain ⟨pc, i, j, flag, posFix, issued, cycleStart, pending, copying, source⟩ := s
    simp only [step] at h
    split at h
    · rename_i hg
      simp only [Option.some.injEq] at h
      subst h
      cases pc <;> simp only [Inv] at hinv ⊢ <;>
        first
        | trivial
        | (exfalso; have hp := hinv.1; rw [hp] at hg; simp at hg)
        | skip
      all_goals
        rcases hinv.2 with h1 | h1 | h1
        · obtain ⟨hp, _, hf⟩ := h1
          rw [hp] at hg
          simp only [List.mem_singleton] at hg
          obtain ⟨rfl, _⟩ := hg
          exact ⟨hinv.1, Or.inr (Or.inl (by simp [hp, hf]))⟩
        · rw [h1.1] at hg
          simp at hg
        · rw [h1.1] at hg
          simp at hg
    · simp at h
  | setFlag =>
    obtain ⟨pc, i, j, flag, posFix, issued, cycleStart, pending, copying, source⟩ := s
    simp only [step] at h
    split at h
    · rename_i hg
      simp only [Option.some.injEq] at h
      subst h
      have hg : copying = true := hg
      subst hg
      cases pc <;> simp only [Inv] at hinv ⊢ <;>
        first
        | trivial
        | (exfalso; have hp := hinv.2.1; simp at hp)
        | skip
      all_goals
        rcases hinv.2 with h1 | h1 | h1
        · simp at h1
        · exact ⟨hinv.1, Or.inr (Or.inr (by simp [h1.1, h1.2.2.2]))⟩
        · simp at h1
    · simp at h

/-- Every sequence of events keeps the property. -/
theorem exec_Inv (N T : Nat) (thr : ℚ) (hN : 1 ≤ N) :
    ∀ (es : List Event) (s s' : Sys), Inv s → exec N T thr s es = some s' → Inv s' := by
  intro es
  induction es with
  | nil =>
    intro s s' hinv h
    simp only [exec, Option.some.injEq] at h
    subst h
    exact hinv
  | cons e es ih =>
    intro s s' hinv h
    simp only [exec] at h
    cases hs : step N T thr s e with
    | none => simp [hs] at h
    | some s1 =>
      simp only [hs] at h
      exact ih s1 s' (step_Inv N T thr hN e s s1 hinv hs) h

/-! ## The two descriptions of the loop agree -/

theorem exec_append (N T : Nat) (thr : ℚ) :
    ∀ (es1 es2 : List Event) (s : Sys),
      exec N T thr s (es1 ++ es2) =
        match exec N T thr s es1 with
        | none => none
        | some s' => exec N T thr s' es2 := by
  intro es1
  induction es1 with
  | nil => intro es2 s; rfl
  | cons e es ih =>
    intro es2 s
    simp only [List.cons_append, exec]
    cases step N T thr s e with
    | none => rfl
    | some s1 => exact ih es2 s1

/-- Under the property of C9 the callback starts only during a wait (or after
a `return`): these are the windows of `Attempt.notify`. -/
theorem copy_only_during_wait (N T : Nat) (thr : ℚ) (s s' : Sys) (c : Nat)
    (fix : WalterModemGNSSFix) (hinv : Inv s)
    (h : step N T thr s (Event.copy c fix) = some s') :
    s.pc = Pc.waitTest ∨ s.pc = Pc.timeoutTest ∨ s.pc = Pc.sleep ∨ s.pc = Pc.returned := by
  obtain ⟨pc, i, j, flag, posFix, issued, cycleStart, pending, copying, source⟩ := s
  simp only [step] at h
  split at h
  · rename_i hg
    cases pc <;> simp only [Inv] at hinv <;> simp <;>
      (have hp := hinv.1; rw [hp] at hg; simp at hg)
  · simp at h

/-- A wait of the loop as a sequence of events: the statements of the wait
loop with the callback, when the library invokes it in a window, placed in
that window. -/
theorem waitLoop_realised (N T : Nat) (thr : ℚ) (notify : Nat → Option WalterModemGNSSFix) :
    ∀ (fuel j sl : Nat) (g : Globals) (s : Sys) (w : WaitResult),
      waitLoop T notify fuel j sl g = some w →
      s.pc = Pc.waitTest → s.j = j → s.fixRcvd = g.fixRcvd → s.posFix = g.posFix →
      s.copying = false → s.pending = (if g.fixRcvd then [] else [s.issued]) →
      ∃ es s', exec N T thr s es = some s' ∧
        s'.fixRcvd = w.globals.fixRcvd ∧ s'.posFix = w.globals.posFix ∧ s'.j = w.j ∧
        s'.i = s.i ∧ s'.issued = s.issued ∧ s'.cycleStart = s.cycleStart ∧
        s'.copying = false ∧
        (w.ending = WaitEnd.received → s'.pc = Pc.acceptTest ∧ s'.pending = []) ∧
        (w.ending = WaitEnd.timedOut → s'.pc = Pc.returned) := by
  intro fuel
  induction fuel with
  | zero => intro j sl g s w h; simp [waitLoop] at h
  | succ fuel ih =>
    intro j sl g s w h hpc hj hf hp hc hpend
    obtain ⟨pc, i, j', flag, posFix, issued, cycleStart, pending, copying, source⟩ := s
    obtain ⟨gf, gp⟩ := g
    simp only at hpc hj hf hp hc hpend
    subst hpc hj hf hp hc
    rw [waitLoop] at h
    cases flag with
    | true =>
      simp only [Bool.not_true, Bool.false_eq_true, if_false, Option.some.injEq] at h
      subst h
      simp only [if_true] at hpend
      subst hpend
      exact ⟨[Event.main true],
        { pc := Pc.acceptTest, i := i, j := j', fixRcvd := true, posFix := posFix,
          issued := issued, cycleStart := cycleStart, pending := [], copying := false,
          source := source }, by simp [exec, step, stepMain], by simp⟩
    | false =>
      simp only [Bool.not_false, if_true] at h
      simp only [Bool.false_eq_true, if_false] at hpend
      subst hpend
      by_cases hjT : T ≤ j'
      · simp only [ge_iff_le, hjT, if_true, Option.some.injEq] at h
        subst h
        exact ⟨[Event.main true, Event.main true],
          { pc := Pc.returned, i := i, j := j', fixRcvd := false, posFix := posFix,
            issued := issued, cycleStart := cycleStart, pending := [issued], copying := false,
            source := source }, by simp [exec, step, stepMain, hjT], by simp⟩
      · simp only [ge_iff_le, hjT, if_false] at h
        cases hn : notify (sl + 1) with
        | none =>
          rw [hn, callback_none] at h
          obtain ⟨es, s', he, hr⟩ := ih (j' + 1) (sl + 1) ⟨false, posFix⟩
            { pc := Pc.waitTest, i := i, j := j' + 1, fixRcvd := false, posFix := posFix,
              issued := issued, cycleStart := cycleStart, pending := [issued],
              copying := false, source := source } w h rfl rfl rfl rfl rfl (by simp)
          refine ⟨[Event.main true, Event.main true, Event.main true] ++ es, s', ?_, hr⟩
          rw [exec_append]
          simp [exec, step, stepMain, hjT, he]
        | some fix =>
          rw [hn, callback_some] at h
          obtain ⟨es, s', he, hr⟩ := ih (j' + 1) (sl + 1) ⟨true, fix⟩
            { pc := Pc.waitTest, i := i, j := j' + 1, fixRcvd := true, posFix := fix,
              issued := issued, cycleStart := cycleStart, pending := [],
              copying := false, source := some (issued, fix) } w h rfl rfl rfl rfl rfl (by simp)
          refine ⟨[Event.main true, Event.main true, Event.main true, Event.copy issued fix,
            Event.setFlag] ++ es, s', ?_, hr⟩
          rw [exec_append]
          simp [exec, step, stepMain, hjT, he]

/-- The retry loop as a sequence of events. -/
theorem retryLoop_realised (N T : Nat) (thr : ℚ) (env : Nat → Attempt) :
    ∀ (fuel i : Nat) (g : Globals) (s : Sys) (r : CycleResult),
      retryLoop N T thr env fuel i g = some r →
      s.pc = Pc.retryTest → s.i = i → s.fixRcvd = g.fixRcvd → s.posFix = g.posFix →
      s.copying = false → s.pending = [] →
      ∃ es s', exec N T thr s es = some s' ∧
        s'.fixRcvd = r.globals.fixRcvd ∧ s'.posFix = r.globals.posFix ∧
        s'.issued = s.issued + r.attempts.length ∧ s'.cycleStart = s.cycleStart ∧
        (∀ fix, r.exit = CycleExit.report fix →
          s'.pc = Pc.report ∧ s'.copying = false ∧ s'.pending = []) ∧
        (r.exit = CycleExit.commandFailed ∨ r.exit = CycleExit.timedOut →
          s'.pc = Pc.returned) := by
  intro fuel
  induction fuel with
  | zero => intro i g s r h; simp [retryLoop] at h
  | succ fuel ih =>
    intro i g s r h hpc hi' hf hp hc hpend
    obtain ⟨pc, i', j, flag, posFix, issued, cycleStart, pending, copying, source⟩ := s
    obtain ⟨gf, gp⟩ := g
    simp only at hpc hi' hf hp hc hpend
    subst hpc hi' hf hp hc hpend
    rw [retryLoop] at h
    dsimp only at h
    by_cases hi : i' < N
    · simp only [hi, if_true] at h
      cases hcmd : (env i').performGNSSAction with
      | false =>
        simp only [hcmd, Bool.not_false, if_true, Option.some.injEq] at h
        subst h
        exact ⟨[Event.main true, Event.main true, Event.main false],
          { pc := Pc.returned, i := i', j := j, fixRcvd := false, posFix := posFix,
            issued := issued + 1, cycleStart := cycleStart, pending := [], copying := false,
            source := source }, by simp [exec, step, stepMain, hi], by simp⟩
      | true =>
        simp only [hcmd, Bool.not_true, Bool.false_eq_true, if_false] at h
        cases hw : waitForFix T (env i').notify ⟨false, posFix⟩ with
        | none => simp [hw] at h
        | some w =>
          simp only [hw] at h
          -- the events up to the first test of the flag, and the state there
          have hpre : ∃ es0 s0, exec N T thr
              { pc := Pc.retryTest, i := i', j := j, fixRcvd := flag, posFix := posFix,
                issued := issued, cycleStart := cycleStart, pending := [], copying := false,
                source := source } es0 = some s0 ∧
              s0.pc = Pc.waitTest ∧ s0.j = 0 ∧
              s0.fixRcvd = (callback ((env i').notify 0) ⟨false, posFix⟩).fixRcvd ∧
              s0.posFix = (callback ((env i').notify 0) ⟨false, posFix⟩).posFix ∧
              s0.copying = false ∧
              s0.pending = (if (callback ((env i').notify 0) ⟨false, posFix⟩).fixRcvd
                then [] else [s0.issued]) ∧
              s0.i = i' ∧ s0.issued = issued + 1 ∧ s0.cycleStart = cycleStart := by
            cases hn : (env i').notify 0 with
            | none =>
              exact ⟨[Event.main true, Event.main true, Event.main true],
                { pc := Pc.waitTest, i := i', j := 0, fixRcvd := false, posFix := posFix,
                  issued := issued + 1, cycleStart := cycleStart, pending := [issued + 1],
                  copying := false, source := source },
                by simp [exec, step, stepMain, hi], by simp [callback]⟩
            | some fix =>
              exact ⟨[Event.main true, Event.main true, Event.main true,
                  Event.copy (issued + 1) fix, Event.setFlag],
                { pc := Pc.waitTest, i := i', j := 0, fixRcvd := true, posFix := fix,
                  issued := issued + 1, cycleStart := cycleStart, pending := [],
                  copying := false, source := some (issued + 1, fix) },
                by simp [exec, step, stepMain, hi], by simp [callback, fixHandler]⟩
          obtain ⟨es0, s0, he0, h0pc, h0j, h0f, h0p, h0c, h0pend, h0i, h0iss, h0cs⟩ := hpre
          obtain ⟨es1, s1, he1, h1f, h1p, _, h1i, h1iss, h1cs, h1c, h1rec, h1to⟩ :=
            waitLoop_realised N T thr (env i').notify (T + 1) 0 0 _ s0 w hw h0pc h0j h0f h0p
              h0c h0pend
          cases hwe : w.ending with
          | timedOut =>
            simp only [hwe, Option.some.injEq] at h
            subst h
            refine ⟨es0 ++ es1, s1, by rw [exec_append, he0]; exact he1, h1f, h1p, ?_, ?_, ?_, ?_⟩
            · show s1.issued = issued + 1
              omega
            · show s1.cycleStart = cycleStart
              omega
            · intro fix hx; simp at hx
            · intro _; exact h1to hwe
          | received =>
            simp only [hwe] at h
            obtain ⟨h1pc, h1pend⟩ := h1rec hwe
            by_cases hacc : acceptable thr w.globals.posFix = true
            · simp only [hacc, if_true, Option.some.injEq] at h
              subst h
              refine ⟨es0 ++ es1 ++ [Event.main true], { s1 with pc := Pc.report }, ?_,
                h1f, h1p, ?_, ?_, ?_, ?_⟩
              · have hacc1 : acceptable thr s1.posFix = true := by rw [h1p]; exact hacc
                rw [exec_append, exec_append, he0]
                simp only [he1]
                simp [exec, step, stepMain, h1pc, hacc1]
              · show s1.issued = issued + 1
                omega
              · show s1.cycleStart = cycleStart
                omega
              · intro fix _; exact ⟨rfl, h1c, h1pend⟩
              · intro hx; simp at hx
            · have hacc : acceptable thr w.globals.posFix = false := by simpa using hacc
              simp only [hacc, Bool.false_eq_true, if_false] at h
              cases hrec : retryLoop N T thr env fuel (i' + 1) w.globals with
              | none => simp [hrec] at h
              | some r' =>
                simp only [hrec, Option.some.injEq] at h
                subst h
                obtain ⟨es2, s2, he2, h2f, h2p, h2iss, h2cs, h2rep, h2ret⟩ :=
                  ih (i' + 1) w.globals { s1 with pc := Pc.retryTest, i := s1.i + 1 } r' hrec
                    rfl (by show s1.i + 1 = i' + 1; omega) h1f h1p h1c h1pend
                refine ⟨es0 ++ es1 ++ [Event.main true] ++ es2, s2, ?_, h2f, h2p, ?_, ?_,
                  h2rep, h2ret⟩
                · have hacc1 : acceptable thr s1.posFix = false := by rw [h1p]; exact hacc
                  rw [exec_append, exec_append, exec_append, he0]
                  simp only [he1]
                  simp only [exec, step, stepMain, h1pc, hacc1, Bool.false_eq_true, if_false]
                  exact he2
                · have h2iss : s2.issued = s1.issued + r'.attempts.length := h2iss
                  show s2.issued = issued + (r'.attempts.length + 1)
                  omega
                · have h2cs : s2.cycleStart = s1.cycleStart := h2cs
                  show s2.cycleStart = cycleStart
                  omega
    · simp only [hi, if_false, Option.some.injEq] at h
      subst h
      exact ⟨[Event.main true],
        { pc := Pc.report, i := i', j := j, fixRcvd := flag, posFix := posFix,
          issued := issued, cycleStart := cycleStart, pending := [], copying := false,
          source := source }, by simp [exec, step, stepMain, hi], by simp⟩

/-- Every outcome of a cycle of `acquireCycle` is the outcome of a run of the
loop taken statement by statement, from the start of a cycle with the same
globals: the same `fixRcvd` and `posFix` at the end, as many commands issued
as the log has entries, the report reached when the cycle exits with one and
a `return` reached otherwise. -/
theorem acquireCycle_realised (N T : Nat) (thr : ℚ) (env : Nat → Attempt) (g : Globals)
    (r : CycleResult) (s : Sys) (h : acquireCycle N T thr env g = some r)
    (hpc : s.pc = Pc.retryTest) (hi : s.i = 0) (hf : s.fixRcvd = g.fixRcvd)
    (hp : s.posFix = g.posFix) (hc : s.copying = false) (hpend : s.pending = []) :
    ∃ es s', exec N T thr s es = some s' ∧
      s'.fixRcvd = r.globals.fixRcvd ∧ s'.posFix = r.globals.posFix ∧
      s'.issued = s.issued + r.attempts.length ∧ s'.cycleStart = s.cycleStart ∧
      (∀ fix, r.exit = CycleExit.report fix →
        s'.pc = Pc.report ∧ s'.copying = false ∧ s'.pending = []) ∧
      (r.exit = CycleExit.commandFailed ∨ r.exit = CycleExit.timedOut →
        s'.pc = Pc.returned) :=
  retryLoop_realised N T thr env (N + 1) 0 g s r h hpc hi hf hp hc hpend

/-! ## Claims -/

/-- C1: when the attempts `1, ..., m + 1` (with `m + 1 ≤ maxAttempts`) each
deliver a record in time, the first `m` with a confidence that fails
`<= threshold` and attempt `k = m + 1` with one that passes it, the retry loop
issues exactly `k` commands, the last log entry is the accepted test of the
`k`-th record, and the report is made from the `k`-th record. -/
theorem retry_stops_at_first_acceptable (N T : Nat) (thr : ℚ) (env : Nat → Attempt)
    (win : Nat → Nat) (rec : Nat → WalterModemGNSSFix) (g : Globals) (m : Nat)
    (hm : m < N)
    (hdel : ∀ i, i ≤ m → win i ≤ T ∧ (env i).DeliversAt (win i) (rec i))
    (hrej : ∀ i, i < m → acceptable thr (rec i) = false)
    (hacc : acceptable thr (rec m) = true) :
    ∃ r, acquireCycle N T thr env g = some r ∧
      r.attempts = rejectedLog win rec 0 m ++ [AttemptLog.tested (win m) (win m) (rec m) true] ∧
      r.attempts.length = m + 1 ∧
      r.exit = CycleExit.report (rec m) ∧
      r.globals.posFix = rec m := by
  have e : N + 1 = m + ((N - m) + 1) := by omega
  have h1 := retryLoop_rejected N T thr env win rec m 0 ((N - m) + 1) g (by omega)
    (fun i' _ h2 => ⟨(hdel i' (by omega)).1, (hdel i' (by omega)).2, hrej i' (by omega)⟩)
  have h2 := retryLoop_received N T thr env (N - m) (0 + m) (win m) (carried rec 0 m g)
    (rec m) (by omega) (hdel m (le_refl m)).1 (by simpa using (hdel m (le_refl m)).2)
  rw [h2] at h1
  simp only [hacc, if_true] at h1
  refine ⟨_, by rw [acquireCycle, e]; exact h1, ?_, ?_, rfl, rfl⟩
  · simp [CycleResult.after]
  · simp [CycleResult.after, rejectedLog_length]

/-- C2: when each of the `maxAttempts ≥ 1` attempts delivers a record in time
and every delivered confidence is above the threshold, the retry loop issues
exactly `maxAttempts` commands and reaches the report (not a `return`) with
the record of the last attempt. -/
theorem exhausted_reports_last (N T : Nat) (thr : ℚ) (env : Nat → Attempt)
    (win : Nat → Nat) (rec : Nat → WalterModemGNSSFix) (g : Globals)
    (hN : 1 ≤ N)
    (hdel : ∀ i, i < N → win i ≤ T ∧ (env i).DeliversAt (win i) (rec i))
    (hhigh : ∀ i, i < N → IEEE.gt (rec i).estimatedConfidence (IEEE.finite thr) = true) :
    ∃ r, acquireCycle N T thr env g = some r ∧
      r.attempts = rejectedLog win rec 0 N ∧
      r.attempts.length = N ∧
      r.exit = CycleExit.report (rec (N - 1)) ∧
      r.globals.posFix = rec (N - 1) := by
  have h1 := retryLoop_rejected N T thr env win rec N 0 1 g (by omega)
    (fun i' _ h2 => ⟨(hdel i' (by omega)).1, (hdel i' (by omega)).2,
      IEEE.le_eq_false_of_gt _ _ (hhigh i' (by omega))⟩)
  rw [retryLoop_exhausted N T thr env 0 (0 + N) _ (by omega)] at h1
  have hc : (carried rec 0 N g).posFix = rec (N - 1) := by
    have : N ≠ 0 := by omega
    simp [carried, this]
  refine ⟨_, h1, ?_, ?_, ?_, ?_⟩
  · simp [CycleResult.after]
  · simp [CycleResult.after, rejectedLog_length]
  · simp [CycleResult.after, hc]
  · simp [CycleResult.after, hc]

/-- C1, the scenario of the claim: `maxAttempts = 3`, confidences
`[150, 120, 80]`, threshold `100`: three commands, report from record #3. -/
theorem retry_stops_at_first_acceptable_witness :
    ∃ r, acquireCycle 3 300 100
        (script [deliver 2 (fixWith (IEEE.finite 150)), deliver 0 (fixWith (IEEE.finite 120)),
          deliver 7 (fixWith (IEEE.finite 80))]) startGlobals = some r ∧
      r.attempts.length = 3 ∧ r.exit = CycleExit.report (fixWith (IEEE.finite 80)) := by
  obtain ⟨r, h1, _, h3, h4, _⟩ := retry_stops_at_first_acceptable 3 300 100
    (script [deliver 2 (fixWith (IEEE.finite 150)), deliver 0 (fixWith (IEEE.finite 120)),
      deliver 7 (fixWith (IEEE.finite 80))])
    (fun i => [2, 0, 7].getD i 0)
    (fun i => fixWith (IEEE.finite ([150, 120, 80].getD i 0))) startGlobals 2
    (by decide) (by decide) (by decide) (by decide)
  exact ⟨r, h1, h3, h4⟩

/-- C2 at `maxAttempts = 2`, confidences `[150, 130]`, threshold `100`: two
commands, report from record #2. -/
theorem exhausted_reports_last_witness :
    ∃ r, acquireCycle 2 300 100
        (script [deliver 1 (fixWith (IEEE.finite 150)), deliver 4 (fixWith (IEEE.finite 130))])
        startGlobals = some r ∧
      r.attempts.length = 2 ∧ r.exit = CycleExit.report (fixWith (IEEE.finite 130)) := by
  obtain ⟨r, h1, _, h3, h4, _⟩ := exhausted_reports_last 2 300 100
    (script [deliver 1 (fixWith (IEEE.finite 150)), deliver 4 (fixWith (IEEE.finite 130))])
    (fun i => [1, 4].getD i 0)
    (fun i => fixWith (IEEE.finite ([150, 130].getD i 0))) startGlobals
    (by decide) (by decide) (by decide)
  exact ⟨r, h1, h3, h4⟩

/-- C5: for `timeoutTicks ≥ 1`, when attempt `i + 1` of a cycle (after `i`
rejected records) has its command accepted and no callback ever runs, the wait
fails with the wait counter equal to `timeoutTicks` after exactly
`timeoutTicks` sleeps, this is the last command of the cycle, the cycle ends
with the timeout, and the run ends with this cycle however long it is
observed. -/
theorem timeout_after_exactly_timeoutTicks (N T : Nat) (thr : ℚ)
    (envs : Nat → Nat → Attempt) (win : Nat → Nat) (rec : Nat → WalterModemGNSSFix)
    (c n : Nat) (g : Globals) (i : Nat) (_hT : 1 ≤ T) (hi : i < N)
    (hrej : ∀ i', i' < i →
      win i' ≤ T ∧ (envs c i').DeliversAt (win i') (rec i') ∧ acceptable thr (rec i') = false)
    (hcmd : (envs c i).performGNSSAction = true)
    (hsilent : ∀ s, (envs c i).notify s = none) :
    ∃ r, acquireCycle N T thr (envs c) g = some r ∧
      r.attempts = rejectedLog win rec 0 i ++ [AttemptLog.timedOut T T] ∧
      r.attempts.length = i + 1 ∧
      r.exit = CycleExit.timedOut ∧
      mainLoop N T thr envs (n + 1) c g = some [r] :=
  cycle_timedOut N T thr envs win rec c n g i hi hrej hcmd (fun s _ => hsilent s)

/-- C5, the scenario of the claim: `timeoutTicks = 3`, no callback ever: the
first wait fails with `j = 3` after exactly 3 sleeps and the run ends. -/
theorem timeout_after_exactly_timeoutTicks_witness :
    ∃ r, acquireCycle 5 3 100 (script []) startGlobals = some r ∧
      r.attempts = [AttemptLog.timedOut 3 3] ∧
      r.exit = CycleExit.timedOut ∧
      mainLoop 5 3 100 (fun _ => script []) 10 0 startGlobals = some [r] := by
  obtain ⟨r, h1, h2, _, h4, h5⟩ := timeout_after_exactly_timeoutTicks 5 3 100
    (fun _ => script []) (fun _ => 0) (fun _ => fixWith (IEEE.finite 150)) 0 9 startGlobals 0
    (by decide) (by decide) (by decide) (by decide) (fun _ => rfl)
  exact ⟨r, h1, h2, h4, h5⟩

/-- C6: when the command of attempt `k = i + 1` of a cycle (after `i` rejected
records) is refused, exactly `k` commands have been issued, the log entry of
the last one records no wait, the cycle ends at the `return` of line 78 and
not at the report, and the run ends with this cycle however long it is
observed. -/
theorem command_failure_ends_run (N T : Nat) (thr : ℚ)
    (envs : Nat → Nat → Attempt) (win : Nat → Nat) (rec : Nat → WalterModemGNSSFix)
    (c n : Nat) (g : Globals) (i : Nat) (hi : i < N)
    (hrej : ∀ i', i' < i →
      win i' ≤ T ∧ (envs c i').DeliversAt (win i') (rec i') ∧ acceptable thr (rec i') = false)
    (hcmd : (envs c i).performGNSSAction = false) :
    ∃ r, acquireCycle N T thr (envs c) g = some r ∧
      r.attempts = rejectedLog win rec 0 i ++ [AttemptLog.commandFailed] ∧
      r.attempts.length = i + 1 ∧
      totalSleeps r.attempts = totalSleeps (rejectedLog win rec 0 i) ∧
      r.exit = CycleExit.commandFailed ∧
      mainLoop N T thr envs (n + 1) c g = some [r] := by
  have h1 := acquireCycle_rejected N T thr (envs c) win rec g i hi hrej
  rw [retryLoop_commandFailed N T thr (envs c) (N - i) i _ hi hcmd] at h1
  refine ⟨_, h1, by simp [CycleResult.after], by simp [CycleResult.after, rejectedLog_length],
    by simp [CycleResult.after, totalSleeps, AttemptLog.sleeps], by simp [CycleResult.after], ?_⟩
  exact mainLoop_return N T thr envs n c g _ h1 (by simp [CycleResult.after])

/-- C6 at `maxAttempts = 5`: two rejected records, then the third command is
refused: three commands, no report, one cycle. -/
theorem command_failure_ends_run_witness :
    ∃ r, acquireCycle 5 3 100
        (script [deliver 1 (fixWith (IEEE.finite 150)), deliver 2 (fixWith (IEEE.finite 120)),
          failing]) startGlobals = some r ∧
      r.attempts.length = 3 ∧
      r.exit = CycleExit.commandFailed ∧
      mainLoop 5 3 100
        (fun _ => script [deliver 1 (fixWith (IEEE.finite 150)),
          deliver 2 (fixWith (IEEE.finite 120)), failing]) 10 0 startGlobals = some [r] := by
  obtain ⟨r, h1, _, h3, _, h5, h6⟩ := command_failure_ends_run 5 3 100
    (fun _ => script [deliver 1 (fixWith (IEEE.finite 150)),
      deliver 2 (fixWith (IEEE.finite 120)), failing])
    (fun i => [1, 2].getD i 0)
    (fun i => fixWith (IEEE.finite ([150, 120].getD i 0))) 0 9 startGlobals 2
    (by decide) (by decide) (by decide)
  exact ⟨r, h1, h3, h5, h6⟩

/-- C8 as stated fails: with `timeoutTicks = 3` and no callback before the
first test or during the first two sleeps, the counter is incremented to 3
with the flag unset; the callback then runs during the third sleep (the poll
interval that follows), and the wait is left with the record instead of
failing: the cycle reaches the report and the next cycle is run. The last
part is the same run statement by statement: three passes through the wait
loop, the callback, then the test of the flag that leads to line 96. -/
theorem notification_in_last_interval_is_accepted :
    (∀ s, s < 3 → (deliver 3 (fixWith (IEEE.finite 80))).notify s = none) ∧
    waitForFix 3 (deliver 3 (fixWith (IEEE.finite 80))).notify startGlobals =
      some ⟨WaitEnd.received, 3, 3, ⟨true, fixWith (IEEE.finite 80)⟩⟩ ∧
    acquireCycle 5 3 100 (script [deliver 3 (fixWith (IEEE.finite 80))]) startGlobals =
      some ⟨[AttemptLog.tested 3 3 (fixWith (IEEE.finite 80)) true],
        CycleExit.report (fixWith (IEEE.finite 80)), ⟨true, fixWith (IEEE.finite 80)⟩⟩ ∧
    (mainLoop 5 3 100 (fun _ => script [deliver 3 (fixWith (IEEE.finite 80))]) 2 0
      startGlobals).map List.length = some 2 ∧
    exec 5 3 100 (Sys.init (fixWith (IEEE.finite 0)))
      [Event.main true, Event.main true, Event.main true,
       Event.main true, Event.main true, Event.main true,
       Event.main true, Event.main true, Event.main true,
       Event.main true, Event.main true, Event.main true,
       Event.copy 1 (fixWith (IEEE.finite 80)), Event.setFlag, Event.main true] =
      some { pc := Pc.acceptTest, i := 0, j := 3, fixRcvd := true,
             posFix := fixWith (IEEE.finite 80), issued := 1, cycleStart := 0,
             pending := [], copying := false, source := some (1, fixWith (IEEE.finite 80)) } := by
  decide

/-- C8, amended: when attempt `i + 1` of a cycle (after `i` rejected records)
has its command accepted, then (1) if no callback runs before the first test
of the flag nor during any of the `timeoutTicks` sleeps, the flag is still
unset when it is tested with the counter equal to `timeoutTicks`: the wait
fails, the cycle ends with the timeout and the run ends with this cycle,
whatever the library has scheduled for later; and (2) if the first callback
runs during the sleep number `timeoutTicks`, the one that follows the counter
reaching `timeoutTicks`, the wait is left with its record and the counter
equal to `timeoutTicks`. -/
theorem timeout_when_unset_at_last_test (N T : Nat) (thr : ℚ)
    (envs : Nat → Nat → Attempt) (win : Nat → Nat) (rec : Nat → WalterModemGNSSFix)
    (c n : Nat) (g : Globals) (i : Nat) (hi : i < N)
    (hrej : ∀ i', i' < i →
      win i' ≤ T ∧ (envs c i').DeliversAt (win i') (rec i') ∧ acceptable thr (rec i') = false)
    (hcmd : (envs c i).performGNSSAction = true) :
    ((∀ s, s ≤ T → (envs c i).notify s = none) →
      waitForFix T (envs c i).notify { carried rec 0 i g with fixRcvd := false } =
        some ⟨WaitEnd.timedOut, T, T, { carried rec 0 i g with fixRcvd := false }⟩ ∧
      ∃ r, acquireCycle N T thr (envs c) g = some r ∧
        r.attempts = rejectedLog win rec 0 i ++ [AttemptLog.timedOut T T] ∧
        r.exit = CycleExit.timedOut ∧
        mainLoop N T thr envs (n + 1) c g = some [r]) ∧
    (∀ fix, (envs c i).notify T = some fix → (∀ s, s < T → (envs c i).notify s = none) →
      waitForFix T (envs c i).notify { carried rec 0 i g with fixRcvd := false } =
        some ⟨WaitEnd.received, T, T, ⟨true, fix⟩⟩) := by
  refine ⟨fun hquiet => ⟨waitForFix_timedOut T _ _ rfl hquiet, ?_⟩, ?_⟩
  · obtain ⟨r, h1, h2, _, h4, h5⟩ :=
      cycle_timedOut N T thr envs win rec c n g i hi hrej hcmd hquiet
    exact ⟨r, h1, h2, h4, h5⟩
  · intro fix hfix hnone
    exact waitForFix_received T _ T fix _ (le_refl T) rfl hfix hnone

/-- C8, amended, at `timeoutTicks = 3`: with a callback scheduled for a fourth
sleep, which never takes place, the run ends with the timeout; with the
callback during the third sleep the wait is left with the record. -/
theorem timeout_when_unset_at_last_test_witness :
    (∃ r, acquireCycle 5 3 100 (script [deliver 4 (fixWith (IEEE.finite 80))]) startGlobals =
        some r ∧
      r.attempts = [AttemptLog.timedOut 3 3] ∧
      r.exit = CycleExit.timedOut ∧
      mainLoop 5 3 100 (fun _ => script [deliver 4 (fixWith (IEEE.finite 80))]) 10 0
        startGlobals = some [r]) ∧
    waitForFix 3 (deliver 3 (fixWith (IEEE.finite 80))).notify startGlobals =
      some ⟨WaitEnd.received, 3, 3, ⟨true, fixWith (IEEE.finite 80)⟩⟩ :=
  ⟨((timeout_when_unset_at_last_test 5 3 100
      (fun _ => script [deliver 4 (fixWith (IEEE.finite 80))]) (fun _ => 0)
      (fun _ => fixWith (IEEE.finite 150)) 0 9 startGlobals 0
      (by decide) (by decide) (by decide)).1 (by decide)).2,
   (timeout_when_unset_at_last_test 5 3 100
      (fun _ => script [deliver 3 (fixWith (IEEE.finite 80))]) (fun _ => 0)
      (fun _ => fixWith (IEEE.finite 150)) 0 0 startGlobals 0
      (by decide) (by decide) (by decide)).2 (fixWith (IEEE.finite 80)) (by decide)
      (by decide)⟩

/-- C3 fails on the code at a record whose confidence is not-a-number: the
test of line 96 rejects it at each of the five attempts, so the cycle reaches
the report with it unaccepted, and the test of line 126 does not flag it, so
the validated coordinates are the ones of the record and not `(0.0, 0.0)`. -/
theorem nan_confidence_rejected_but_not_zeroed :
    acceptable MAX_GNSS_CONFIDENCE (fixWith IEEE.nan) = false ∧
    flaggedInvalid MAX_GNSS_CONFIDENCE (fixWith IEEE.nan) = false ∧
    validate MAX_GNSS_CONFIDENCE (fixWith IEEE.nan) = (IEEE.finite 51, IEEE.finite 4) ∧
    validate MAX_GNSS_CONFIDENCE (fixWith IEEE.nan) ≠ (IEEE.finite 0, IEEE.finite 0) ∧
    (app_main (fun _ _ => deliver 0 (fixWith IEEE.nan)) 1 startGlobals).map
        (List.map (fun r => (r.attempts.length, r.exit))) =
      some [(5, CycleExit.report (fixWith IEEE.nan))] := by
  decide

/-- C4: for a record whose `satCount` fits in 8 bits and does not exceed the
number of entries of `sats`, the counting loop reads inside the array and
leaves in `strongSatellites` exactly the number of entries among the first
`satCount` whose `signalStrength` is at least 30; the 8-bit counter does not
wrap (the count is at most `satCount`, and equals itself modulo `2^8`), and
the count is 0 when there are no entries. -/
theorem strongSatellites_counts (posFix : WalterModemGNSSFix)
    (h8 : posFix.satCount ≤ 255) (hb : posFix.satCount ≤ posFix.sats.length) :
    strongSatellites posFix =
      some (((posFix.sats.take posFix.satCount).filter
        (fun s => decide (30 ≤ s.signalStrength))).length) ∧
    ((posFix.sats.take posFix.satCount).filter
      (fun s => decide (30 ≤ s.signalStrength))).length ≤ posFix.satCount ∧
    ((posFix.sats.take posFix.satCount).filter
      (fun s => decide (30 ≤ s.signalStrength))).length % 2 ^ 8 =
      ((posFix.sats.take posFix.satCount).filter
        (fun s => decide (30 ≤ s.signalStrength))).length ∧
    (posFix.sats = [] → strongSatellites posFix = some 0) := by
  have hc : ((posFix.sats.take posFix.satCount).filter
      (fun s => decide (30 ≤ s.signalStrength))).length ≤ posFix.satCount := by
    refine le_trans (List.length_filter_le _ _) ?_
    simp
  have h := countStep_fold posFix posFix.satCount h8 hb
  refine ⟨h, hc, Nat.mod_eq_of_lt (by omega), ?_⟩
  intro he
  rw [strongSatellites, h, he]
  simp

/-- C4 at a record with `satCount = 3` and the strengths `30, 29, 45, 99` in
`sats`: two strong signals among the first three. -/
theorem strongSatellites_counts_witness :
    strongSatellites ⟨IEEE.finite 80, IEEE.finite 51, IEEE.finite 4, 3,
      [⟨30⟩, ⟨29⟩, ⟨45⟩, ⟨99⟩]⟩ = some 2 :=
  (strongSatellites_counts ⟨IEEE.finite 80, IEEE.finite 51, IEEE.finite 4, 3,
    [⟨30⟩, ⟨29⟩, ⟨45⟩, ⟨99⟩]⟩ (by decide) (by decide)).1

/-- C10: with the constants of lines 10-13, whatever the library does (any
command results, any callbacks in any windows, any records), one cycle
returns; it ends at the report with an acceptable record, at the report after
five rejected records, or at one of the two `return`s; it issues at least one
and at most five commands, sleeps at most 300 times for each of them and at
most 1500 times in all. -/
theorem cycle_terminates_within_bounds (env : Nat → Attempt) (g : Globals) :
    ∃ r, acquireCycle GNSS_RETRY_COUNT GNSS_TIMEOUT MAX_GNSS_CONFIDENCE env g = some r ∧
      1 ≤ r.attempts.length ∧ r.attempts.length ≤ 5 ∧
      (∀ a ∈ r.attempts, a.sleeps ≤ 300) ∧
      totalSleeps r.attempts ≤ 5 * 300 ∧
      ((∃ fix, r.exit = CycleExit.report fix ∧ acceptable MAX_GNSS_CONFIDENCE fix = true) ∨
        (∃ fix, r.exit = CycleExit.report fix ∧ acceptable MAX_GNSS_CONFIDENCE fix = false ∧
          r.attempts.length = 5) ∨
        r.exit = CycleExit.commandFailed ∨ r.exit = CycleExit.timedOut) := by
  obtain ⟨r, hr, h1, h2, h3⟩ :=
    acquireCycle_total GNSS_RETRY_COUNT GNSS_TIMEOUT MAX_GNSS_CONFIDENCE env g
  have h1 : r.attempts.length ≤ 5 := h1
  have h3 : ∀ a ∈ r.attempts, a.sleeps ≤ 300 := h3
  have h4 := totalSleeps_le 300 r.attempts h3
  refine ⟨r, hr, h2 (by decide), h1, h3, ?_, ?_⟩
  · have : r.attempts.length * 300 ≤ 5 * 300 := Nat.mul_le_mul_right 300 h1
    omega
  · cases hx : r.exit with
    | commandFailed => simp
    | timedOut => simp
    | report fix =>
      cases ha : acceptable MAX_GNSS_CONFIDENCE fix with
      | true => exact Or.inl ⟨fix, rfl, ha⟩
      | false =>
        have := (retryLoop_report GNSS_RETRY_COUNT GNSS_TIMEOUT MAX_GNSS_CONFIDENCE env
          (GNSS_RETRY_COUNT + 1) 0 g r fix hr hx).2.2.2 ha
        exact Or.inr (Or.inl ⟨fix, rfl, ha, this.1⟩)

/-- C7 as stated fails, with `maxAttempts = 2` and threshold `100`.
(1) Confidences not-a-number, then `150`: both attempts are issued and the
report is made from record #2, unaccepted and with coordinates `(0.0, 0.0)`,
although the confidence delivered by attempt 1 is not above the threshold.
(2) Confidences `150`, then not-a-number: both attempts are issued, neither
record passes the test of line 96, and the report is made from record #2,
unaccepted, but with the coordinates of the record and not `(0.0, 0.0)`. -/
theorem unaccepted_report_after_nan_attempt :
    (acquireCycle 2 3 100
      (script [deliver 0 (fixWith IEEE.nan), deliver 0 (fixWith (IEEE.finite 150))])
      startGlobals =
      some ⟨[AttemptLog.tested 0 0 (fixWith IEEE.nan) false,
          AttemptLog.tested 0 0 (fixWith (IEEE.finite 150)) false],
        CycleExit.report (fixWith (IEEE.finite 150)), ⟨true, fixWith (IEEE.finite 150)⟩⟩ ∧
      acceptable 100 (fixWith (IEEE.finite 150)) = false ∧
      validate 100 (fixWith (IEEE.finite 150)) = (IEEE.finite 0, IEEE.finite 0) ∧
      IEEE.gt (fixWith IEEE.nan).estimatedConfidence (IEEE.finite 100) = false) ∧
    (acquireCycle 2 3 100
      (script [deliver 0 (fixWith (IEEE.finite 150)), deliver 0 (fixWith IEEE.nan)])
      startGlobals =
      some ⟨[AttemptLog.tested 0 0 (fixWith (IEEE.finite 150)) false,
          AttemptLog.tested 0 0 (fixWith IEEE.nan) false],
        CycleExit.report (fixWith IEEE.nan), ⟨true, fixWith IEEE.nan⟩⟩ ∧
      acceptable 100 (fixWith IEEE.nan) = false ∧
      validate 100 (fixWith IEEE.nan) = (IEEE.finite 51, IEEE.finite 4)) := by
  decide

/-- C7, amended: for `maxAttempts ≥ 1` and a cycle that reaches the report
without any delivered confidence being not-a-number, the reported record is
unaccepted with validated coordinates `(0.0, 0.0)` if and only if all
`maxAttempts` commands were issued and every one of them was followed by a
record with a confidence above the threshold; and whatever the confidence
reported, the cycle loop goes on: the next cycle is run. -/
theorem low_confidence_reported_iff_exhausted (N T : Nat) (thr : ℚ)
    (envs : Nat → Nat → Attempt) (c n : Nat) (g : Globals) (r : CycleResult)
    (fix : WalterModemGNSSFix) (hN : 1 ≤ N)
    (hr : acquireCycle N T thr (envs c) g = some r)
    (hx : r.exit = CycleExit.report fix)
    (hnan : ∀ j s f acc, AttemptLog.tested j s f acc ∈ r.attempts →
      f.estimatedConfidence ≠ IEEE.nan) :
    ((acceptable thr fix = false ∧ validate thr fix = (IEEE.finite 0, IEEE.finite 0)) ↔
      (r.attempts.length = N ∧
        ∀ a ∈ r.attempts, ∃ j s f acc, a = AttemptLog.tested j s f acc ∧
          IEEE.gt f.estimatedConfidence (IEEE.finite thr) = true)) ∧
    (∃ r' rs, acquireCycle N T thr (envs (c + 1)) r.globals = some r' ∧
      mainLoop N T thr envs (n + 2) c g = some (r :: r' :: rs)) := by
  obtain ⟨_, _, h3, h4⟩ := retryLoop_report N T thr (envs c) (N + 1) 0 g r fix hr hx
  refine ⟨⟨?_, ?_⟩, mainLoop_report N T thr envs n c g r fix hr hx⟩
  · rintro ⟨ha, _⟩
    obtain ⟨h5, h6⟩ := h4 ha
    refine ⟨by simpa using h5, ?_⟩
    intro a hmem
    obtain ⟨j, s, f, rfl, hf⟩ := h6 a hmem
    refine ⟨j, s, f, false, rfl, ?_⟩
    have := flaggedInvalid_eq_not_acceptable thr f (hnan j s f false hmem)
    rw [hf] at this
    exact this
  · rintro ⟨_, hall⟩
    obtain ⟨j, s, hl⟩ := h3 (by omega)
    have hmem := List.mem_of_getLast?_eq_some hl
    obtain ⟨j', s', f', acc', he, hgt⟩ := hall _ hmem
    simp only [AttemptLog.tested.injEq] at he
    obtain ⟨_, _, rfl, _⟩ := he
    refine ⟨IEEE.le_eq_false_of_gt _ _ hgt, ?_⟩
    have hfl : flaggedInvalid thr fix = true := hgt
    simp [validate, hfl]

/-- C7, the scenario of the claim: `maxAttempts = 2`, confidences
`[150, 130]`, threshold `100`: the report is made from record #2, unaccepted,
with coordinates `(0.0, 0.0)`, and the next cycle is run. -/
theorem low_confidence_reported_iff_exhausted_witness :
    acquireCycle 2 3 100
      (script [deliver 1 (fixWith (IEEE.finite 150)), deliver 0 (fixWith (IEEE.finite 130))])
      startGlobals =
      some ⟨[AttemptLog.tested 1 1 (fixWith (IEEE.finite 150)) false,
          AttemptLog.tested 0 0 (fixWith (IEEE.finite 130)) false],
        CycleExit.report (fixWith (IEEE.finite 130)), ⟨true, fixWith (IEEE.finite 130)⟩⟩ ∧
    acceptable 100 (fixWith (IEEE.finite 130)) = false ∧
    validate 100 (fixWith (IEEE.finite 130)) = (IEEE.finite 0, IEEE.finite 0) := by
  have hr : acquireCycle 2 3 100
      (script [deliver 1 (fixWith (IEEE.finite 150)), deliver 0 (fixWith (IEEE.finite 130))])
      startGlobals =
      some ⟨[AttemptLog.tested 1 1 (fixWith (IEEE.finite 150)) false,
          AttemptLog.tested 0 0 (fixWith (IEEE.finite 130)) false],
        CycleExit.report (fixWith (IEEE.finite 130)), ⟨true, fixWith (IEEE.finite 130)⟩⟩ := by
    decide
  have h := low_confidence_reported_iff_exhausted 2 3 100
    (fun _ => script [deliver 1 (fixWith (IEEE.finite 150)),
      deliver 0 (fixWith (IEEE.finite 130))]) 0 0 startGlobals _
    (fixWith (IEEE.finite 130)) (by decide) hr rfl
    (by
      intro j s f acc hmem
      simp only [List.mem_cons, AttemptLog.tested.injEq, List.mem_singleton,
        List.not_mem_nil, or_false] at hmem
      rcases hmem with ⟨_, _, rfl, _⟩ | ⟨_, _, rfl, _⟩ <;> simp [fixWith])
  refine ⟨hr, h.1.mpr ⟨rfl, ?_⟩⟩
  intro a hmem
  simp only [List.mem_cons, List.mem_singleton, List.not_mem_nil, or_false] at hmem
  rcases hmem with rfl | rfl
  · exact ⟨1, 1, fixWith (IEEE.finite 150), false, rfl, by decide⟩
  · exact ⟨0, 0, fixWith (IEEE.finite 130), false, rfl, by decide⟩

/-- C9: for `maxAttempts ≥ 1`, in every state reached from the start of the
loop by statements of `app_main` and callbacks, the callback running at most
once per command: when the next statement is `performGNSSAction`, the flag
`fixRcvd` is false, no earlier command still awaits its callback and no
callback is under way; when the next statement is the acceptance test or the
report, `posFix` holds the record written by the callback for the most recent
command, this command was issued in the current cycle, and no callback is
under way or still to come. -/
theorem posFix_read_is_fresh (N T : Nat) (thr : ℚ) (hN : 1 ≤ N)
    (posFix0 : WalterModemGNSSFix) (es : List Event) (s : Sys)
    (h : exec N T thr (Sys.init posFix0) es = some s) :
    (s.pc = Pc.command → s.fixRcvd = false ∧ s.pending = [] ∧ s.copying = false) ∧
    (s.pc = Pc.acceptTest ∨ s.pc = Pc.report →
      s.source = some (s.issued, s.posFix) ∧ s.cycleStart < s.issued ∧
      s.pending = [] ∧ s.copying = false) := by
  have hinv := exec_Inv N T thr hN es (Sys.init posFix0) s (Inv_init posFix0) h
  obtain ⟨pc, i, j, flag, posFix, issued, cycleStart, pending, copying, source⟩ := s
  refine ⟨?_, ?_⟩
  · intro hpc
    simp only at hpc
    subst hpc
    simp only [Inv] at hinv
    exact ⟨hinv.2.2.2, hinv.1, hinv.2.1⟩
  · intro hpc
    simp only at hpc
    rcases hpc with hpc | hpc <;> subst hpc <;> simp only [Inv] at hinv <;>
      exact ⟨hinv.2.2.1, hinv.2.2.2, hinv.1, hinv.2.1⟩

/-- C9 on a run of the loop with the constants of lines 10-13: the first
command is issued, the callback copies a record while `app_main` polls, sets
the flag during the first sleep, and the loop arrives at the acceptance test
and later, after a rejection, at the second command. -/
theorem posFix_read_is_fresh_witness :
    exec GNSS_RETRY_COUNT GNSS_TIMEOUT MAX_GNSS_CONFIDENCE (Sys.init (fixWith (IEEE.finite 0)))
      [Event.main true, Event.main true, Event.main true,
       Event.copy 1 (fixWith (IEEE.finite 150)), Event.main true, Event.main true,
       Event.setFlag, Event.main true, Event.main true] =
      some { pc := Pc.acceptTest, i := 0, j := 1, fixRcvd := true,
             posFix := fixWith (IEEE.finite 150), issued := 1, cycleStart := 0,
             pending := [], copying := false, source := some (1, fixWith (IEEE.finite 150)) } ∧
    (some (1, fixWith (IEEE.finite 150)) = some (1, fixWith (IEEE.finite 150)) ∧ 0 < 1 ∧
      ([] : List Nat) = [] ∧ false = false) :=
  ⟨by decide,
    (posFix_read_is_fresh GNSS_RETRY_COUNT GNSS_TIMEOUT MAX_GNSS_CONFIDENCE (by decide)
      (fixWith (IEEE.finite 0))
      [Event.main true, Event.main true, Event.main true,
       Event.copy 1 (fixWith (IEEE.finite 150)), Event.main true, Event.main true,
       Event.setFlag, Event.main true, Event.main true]
      { pc := Pc.acceptTest, i := 0, j := 1, fixRcvd := true,
        posFix := fixWith (IEEE.finite 150), issued := 1, cycleStart := 0,
        pending := [], copying := false, source := some (1, fixWith (IEEE.finite 150)) }
      (by decide)).2 (Or.inl rfl)⟩

end Positioning
